import Mathlib

/-!
# PiVault cryptographic core — shallow embedding and verification

This file embeds the client-side cryptographic core of the PiVault password
vault (the module `frontend/src/lib/crypto.js` together with the session
lifecycle in `frontend/src/context/AuthContext.js`) as executable Lean
definitions, and proves or refutes the specification claims about it.

Modelling conventions:
* JavaScript strings are modelled as Lean `String` (sequences of Unicode
  scalar values); byte sequences as `List Nat` with every element `< 256`;
  32-bit words as `Nat` reduced `% 2 ^ 32` where overflow can occur.
* The cryptographically secure random source (`crypto.getRandomValues`,
  `CryptoJS.lib.WordArray.random`) is modelled by passing the drawn values
  as explicit arguments.
* Fallible JavaScript operations (decryption, base64/UTF-8 decoding,
  JSON parsing) return `Option`; a caught exception is `none`.
-/

/-! ## Password strength scorer (`calculatePasswordStrength`) -/

/-- Result record of `calculatePasswordStrength`:
`{ score: number, feedback: string[], color: string }`. -/
structure StrengthResult where
  score : Nat
  feedback : List String
  color : String
deriving Repr, DecidableEq

/-- `/[a-z]/.test(password)` on a single character. -/
def charIsLower (c : Char) : Bool := 'a' ≤ c && c ≤ 'z'

/-- `/[A-Z]/.test(password)` on a single character. -/
def charIsUpper (c : Char) : Bool := 'A' ≤ c && c ≤ 'Z'

/-- `/[0-9]/.test(password)` on a single character. -/
def charIsDigit (c : Char) : Bool := '0' ≤ c && c ≤ '9'

/-- `/[^a-zA-Z0-9]/.test(password)` on a single character. -/
def charIsSpecial (c : Char) : Bool := !(charIsLower c || charIsUpper c || charIsDigit c)

/-- Whether `pat` occurs at the start of `l` (character-wise). -/
def listStartsWith : List Char → List Char → Bool
  | [], _ => true
  | _ :: _, [] => false
  | a :: pat, b :: l => a = b && listStartsWith pat l

/-- JavaScript `String.prototype.includes`: `pat` occurs somewhere in `l`. -/
def listIncludes (pat : List Char) : List Char → Bool
  | [] => listStartsWith pat []
  | c :: rest => listStartsWith pat (c :: rest) || listIncludes pat rest

/-- `haystack.includes(needle)` for strings. -/
def strIncludes (haystack needle : String) : Bool :=
  listIncludes needle.data haystack.data

/-- `password.toLowerCase()`.  The passwords and the deny-list patterns are
ASCII, so the ASCII `Char.toLower` mapping coincides with the JavaScript
Unicode one on every character that could contribute to a pattern match. -/
def strToLower (s : String) : String := String.mk (s.data.map Char.toLower)

/-- The deny-list from the source:
`['123', 'abc', 'qwerty', 'password', 'admin', '111', 'aaa']`. -/
def commonPatterns : List String :=
  ["123", "abc", "qwerty", "password", "admin", "111", "aaa"]

/-- `Math.max(0, Math.min(score, 7))`. -/
def clampScore (score : Int) : Int := max 0 (min score 7)

/-- The color ladder at the end of `calculatePasswordStrength`:
`score <= 2 → red`, `<= 4 → yellow`, `<= 5 → orange`, else `green`. -/
def strengthColor (score : Int) : String :=
  if score ≤ 2 then "red"
  else if score ≤ 4 then "yellow"
  else if score ≤ 5 then "orange"
  else "green"

/-- `calculatePasswordStrength(password)` from `crypto.js`, translated
statement by statement: each `score += 1` / `feedback.push(...)` pair becomes
a `let` binding, evaluated in source order. -/
def calculatePasswordStrength (password : String) : StrengthResult :=
  if password = "" then { score := 0, feedback := ["empty_password"], color := "gray" }
  else
    let len := password.length
    let score1 : Int := if len ≥ 8 then 1 else 0
    let fb1 : List String := if len ≥ 8 then [] else ["password_too_short"]
    let score2 : Int := score1 + (if len ≥ 12 then 1 else 0)
    let score3 : Int := score2 + (if len ≥ 16 then 1 else 0)
    let hasLow := password.data.any charIsLower
    let score4 : Int := score3 + (if hasLow then 1 else 0)
    let fb2 := fb1 ++ (if hasLow then [] else ["add_lowercase"])
    let hasUp := password.data.any charIsUpper
    let score5 : Int := score4 + (if hasUp then 1 else 0)
    let fb3 := fb2 ++ (if hasUp then [] else ["add_uppercase"])
    let hasNum := password.data.any charIsDigit
    let score6 : Int := score5 + (if hasNum then 1 else 0)
    let fb4 := fb3 ++ (if hasNum then [] else ["add_numbers"])
    let hasSpec := password.data.any charIsSpecial
    let score7 : Int := score6 + (if hasSpec then 1 else 0)
    let fb5 := fb4 ++ (if hasSpec then [] else ["add_special"])
    let deny := commonPatterns.any fun pat => strIncludes (strToLower password) pat
    let score8 : Int := score7 + (if deny then -2 else 0)
    let fb6 := fb5 ++ (if deny then ["avoid_common_patterns"] else [])
    let final := clampScore score8
    { score := final.toNat, feedback := fb6, color := strengthColor final }

/-- Modelled from the spec: the ordered additive rule table of §4.4
(StrengthScorer).  Each rule contributes its points and, on failure, its
feedback code; the total is clamped to `[0, 7]`; the empty password
short-circuits to score 0 with feedback `empty_password`. -/
def specRuleTable (p : String) : List (Int × Option String) :=
  [ (if p.length ≥ 8 then 1 else 0, if p.length ≥ 8 then none else some "password_too_short"),
    (if p.length ≥ 12 then 1 else 0, none),
    (if p.length ≥ 16 then 1 else 0, none),
    (if p.data.any charIsLower then 1 else 0,
      if p.data.any charIsLower then none else some "add_lowercase"),
    (if p.data.any charIsUpper then 1 else 0,
      if p.data.any charIsUpper then none else some "add_uppercase"),
    (if p.data.any charIsDigit then 1 else 0,
      if p.data.any charIsDigit then none else some "add_numbers"),
    (if p.data.any charIsSpecial then 1 else 0,
      if p.data.any charIsSpecial then none else some "add_special"),
    (if commonPatterns.any (fun pat => strIncludes (strToLower p) pat) then -2 else 0,
      if commonPatterns.any (fun pat => strIncludes (strToLower p) pat) then
        some "avoid_common_patterns" else none) ]

/-- Modelled from the spec: `score(password) → StrengthResult`, as the sum of
the rule points clamped to `[0, 7]`, with the failing rules' feedback codes
in rule order. -/
def specStrengthScore (p : String) : Nat × List String :=
  if p = "" then (0, ["empty_password"])
  else
    (((specRuleTable p).foldl (fun a r => a + r.1) 0 |> clampScore).toNat,
      (specRuleTable p).filterMap (fun r => r.2))

/-! ## Password generator (`generatePassword`)

`crypto.getRandomValues` is called twice in the source: once for the
`length`-element draw array and once for the injection positions.  Both are
modelled as functions `Nat → Nat` giving the 32-bit value drawn at each
index. -/

/-- The `options` object of `generatePassword`, with the source's defaults. -/
structure PasswordOptions where
  length : Nat := 16
  uppercase : Bool := true
  lowercase : Bool := true
  numbers : Bool := true
  symbols : Bool := true
  excludeAmbiguous : Bool := false
deriving Repr, DecidableEq

/-- The `requirements.forEach((chars, index) => ...)` loop: for each selected
class alphabet, overwrite `arr[positions[index] % length]` with
`chars[positions[index] % chars.length]`.  Out-of-range `List.set` is a no-op,
matching the behaviour of `join` on a JavaScript array with only holes added
(relevant only for `length = 0`). -/
def injectReqs (positions : Nat → Nat) (len : Nat) :
    List Char → List (List Char) → Nat → List Char
  | arr, [], _ => arr
  | arr, chars :: rest, idx =>
      injectReqs positions len
        (arr.set (positions idx % len) (chars.getD (positions idx % chars.length) 'a'))
        rest (idx + 1)

/-- `generatePassword(options)` from `crypto.js`.  `array i` is the `i`-th
entry of the first `getRandomValues` array, `positions i` the `i`-th entry of
the second. -/
def generatePassword (opts : PasswordOptions) (array positions : Nat → Nat) : String :=
  let lowercaseChars : String :=
    if opts.excludeAmbiguous then "abcdefghjkmnpqrstuvwxyz" else "abcdefghijklmnopqrstuvwxyz"
  let uppercaseChars : String :=
    if opts.excludeAmbiguous then "ABCDEFGHJKMNPQRSTUVWXYZ" else "ABCDEFGHIJKLMNOPQRSTUVWXYZ"
  let numberChars : String := if opts.excludeAmbiguous then "23456789" else "0123456789"
  let symbolChars : String := "!@#$%^&*()_+-=[]\x7b\x7d|;:,.<>?"
  let charset0 : String :=
    (if opts.lowercase then lowercaseChars else "") ++
    (if opts.uppercase then uppercaseChars else "") ++
    (if opts.numbers then numberChars else "") ++
    (if opts.symbols then symbolChars else "")
  let charset : String :=
    if charset0 = "" then lowercaseChars ++ uppercaseChars ++ numberChars else charset0
  let cs := charset.data
  let password := (List.range opts.length).map fun i => cs.getD (array i % cs.length) 'a'
  let requirements : List (List Char) :=
    (if opts.lowercase then [lowercaseChars.data] else []) ++
    (if opts.uppercase then [uppercaseChars.data] else []) ++
    (if opts.numbers then [numberChars.data] else []) ++
    (if opts.symbols then [symbolChars.data] else [])
  String.mk (injectReqs positions opts.length password requirements 0)

/-- The plain (non-ambiguous-filtered) lowercase alphabet. -/
def lowerAlphabet : List Char := "abcdefghijklmnopqrstuvwxyz".data

/-- The plain uppercase alphabet. -/
def upperAlphabet : List Char := "ABCDEFGHIJKLMNOPQRSTUVWXYZ".data

/-- The plain digit alphabet. -/
def digitAlphabet : List Char := "0123456789".data

/-- The symbol alphabet of the source. -/
def symbolAlphabet : List Char := "!@#$%^&*()_+-=[]\x7b\x7d|;:,.<>?".data

/-- The 62-character union used both as the default working alphabet when all
selected classes are lower/upper/digits and as the empty-charset fallback. -/
def alnumAlphabet : List Char := lowerAlphabet ++ upperAlphabet ++ digitAlphabet

/-- The policy of claim C4:
`{length:12, uppercase:true, lowercase:true, numbers:true, symbols:false}`. -/
def c4opts : PasswordOptions :=
  { length := 12, uppercase := true, lowercase := true, numbers := true,
    symbols := false, excludeAmbiguous := false }

/-- The policy of claim C5: all four include-flags cleared. -/
def c5opts : PasswordOptions :=
  { length := 12, uppercase := false, lowercase := false, numbers := false,
    symbols := false, excludeAmbiguous := false }

/-! ## Clipboard guard (`copyToClipboard`)

The browser clipboard and timer are collaborators; the model records the
observable effects of one call: the returned boolean, the value written, and
the deferred check scheduled by `setTimeout`.  Whether `navigator.clipboard`
accepts the write is an input (`writeOk`). -/

/-- A deferred clipboard check scheduled with `setTimeout(..., clearAfterMs)`. -/
structure ScheduledClear where
  delay : Int
  text : String
deriving Repr, DecidableEq

/-- The observable outcome of one `copyToClipboard` call. -/
structure ClipboardEffect where
  returned : Bool
  written : Option String
  scheduled : List ScheduledClear
deriving Repr, DecidableEq

/-- The body of the `setTimeout` callback in `copyToClipboard`: read the
clipboard (`readResult = none` models a read that throws, which the inner
`catch` swallows) and write `''` only when the contents still equal `text`.
The result is the value written back, `none` for a no-op. -/
def runClipboardCheck (text : String) (readResult : Option String) : Option String :=
  match readResult with
  | none => none
  | some currentClip => if currentClip = text then some "" else none

/-- `copyToClipboard(text, clearAfterMs)` from `crypto.js`: write `text`; on
success return `true` and, if `clearAfterMs > 0`, schedule exactly one
deferred check; on a write failure the `catch` returns `false` with nothing
scheduled. -/
def copyToClipboard (text : String) (clearAfterMs : Int) (writeOk : Bool) : ClipboardEffect :=
  if writeOk then
    { returned := true, written := some text,
      scheduled := if clearAfterMs > 0 then [{ delay := clearAfterMs, text := text }] else [] }
  else
    { returned := false, written := none, scheduled := [] }

/-! ## Byte-level encodings: hex (CryptoJS `enc.Hex`) and base64
(CryptoJS `enc.Base64`) -/

/-- The hex digit alphabet used by `WordArray.toString(CryptoJS.enc.Hex)`. -/
def hexDigitChars : List Char := "0123456789abcdef".data

/-- One byte to two lowercase hex digits. -/
def byteToHex (b : Nat) : List Char :=
  [hexDigitChars.getD (b / 16 % 16) '0', hexDigitChars.getD (b % 16) '0']

/-- `wordArray.toString(CryptoJS.enc.Hex)` over a byte list. -/
def hexEncode (bytes : List Nat) : String :=
  String.mk ((bytes.map byteToHex).flatten)

/-- Value of a single hex digit, `none` for a non-digit. -/
def hexVal (c : Char) : Option Nat :=
  if '0' ≤ c ∧ c ≤ '9' then some (c.toNat - '0'.toNat)
  else if 'a' ≤ c ∧ c ≤ 'f' then some (c.toNat - 'a'.toNat + 10)
  else if 'A' ≤ c ∧ c ≤ 'F' then some (c.toNat - 'A'.toNat + 10)
  else none

/-- One step of `CryptoJS.enc.Hex.parse`: `parseInt(hexStr.substr(i, 2), 16)`.
`parseInt` parses the longest valid leading digit run and yields `NaN` (which
the word accumulation turns into 0 bits) when the first character is bad. -/
def hexPairVal (c1 : Char) (c2 : Option Char) : Nat :=
  match hexVal c1 with
  | none => 0
  | some v1 =>
    match c2 with
    | none => v1
    | some c2 =>
      match hexVal c2 with
      | none => v1
      | some v2 => 16 * v1 + v2

/-- `CryptoJS.enc.Hex.parse`, on the character list, two characters per byte.
Never fails: invalid digits contribute 0 bits exactly as `NaN | 0` does. -/
def hexParseChars : List Char → List Nat
  | [] => []
  | [c] => [hexPairVal c none]
  | c1 :: c2 :: rest => hexPairVal c1 (some c2) :: hexParseChars rest

/-- `CryptoJS.enc.Hex.parse(str)` as bytes. -/
def hexParseCJ (s : String) : List Nat := hexParseChars s.data

/-- The base64 alphabet of `CryptoJS.enc.Base64`. -/
def base64Map : List Char :=
  "ABCDEFGHIJKLMNOPQRSTUVWXYZabcdefghijklmnopqrstuvwxyz0123456789+/".data

/-- Sextet to base64 character. -/
def b64chr (v : Nat) : Char := base64Map.getD v 'A'

/-- `WordArray.toString(CryptoJS.enc.Base64)`: three bytes to four characters,
with `=` padding on a trailing group of one or two bytes. -/
def b64chunks : List Nat → List Char
  | [] => []
  | [b0] => [b64chr (b0 / 4), b64chr (b0 % 4 * 16), '=', '=']
  | [b0, b1] => [b64chr (b0 / 4), b64chr (b0 % 4 * 16 + b1 / 16), b64chr (b1 % 16 * 4), '=']
  | b0 :: b1 :: b2 :: rest =>
      b64chr (b0 / 4) :: b64chr (b0 % 4 * 16 + b1 / 16) ::
      b64chr (b1 % 16 * 4 + b2 / 64) :: b64chr (b2 % 64) :: b64chunks rest

/-- Base64 encoding of a byte list. -/
def base64Encode (bytes : List Nat) : String := String.mk (b64chunks bytes)

/-- Index of a character in the base64 alphabet. -/
def b64val (c : Char) : List Char → Option Nat
  | [] => none
  | d :: rest => if d = c then some 0 else (b64val c rest).map (· + 1)

/-- Decode a padding-stripped base64 character list back to bytes, four
characters at a time; the byte arithmetic mirrors the bit reassembly of
`CryptoJS.enc.Base64.parse`'s `parseLoop`.  Returns `none` on characters
outside the alphabet (where CryptoJS would silently produce garbage bits;
the strict model maps that to a failed decode). -/
def b64decodeChars : List Char → Option (List Nat)
  | [] => some []
  | [_] => some []
  | [c0, c1] =>
      match b64val c0 base64Map, b64val c1 base64Map with
      | some v0, some v1 => some [v0 * 4 + v1 / 16]
      | _, _ => none
  | [c0, c1, c2] =>
      match b64val c0 base64Map, b64val c1 base64Map, b64val c2 base64Map with
      | some v0, some v1, some v2 => some [v0 * 4 + v1 / 16, v1 % 16 * 16 + v2 / 4]
      | _, _, _ => none
  | c0 :: c1 :: c2 :: c3 :: rest =>
      match b64val c0 base64Map, b64val c1 base64Map, b64val c2 base64Map,
            b64val c3 base64Map with
      | some v0, some v1, some v2, some v3 =>
        (b64decodeChars rest).map
          (fun bs => (v0 * 4 + v1 / 16) :: (v1 % 16 * 16 + v2 / 4) :: (v2 % 4 * 64 + v3) :: bs)
      | _, _, _, _ => none

/-- `CryptoJS.enc.Base64.parse`: truncate at the first `=` (the source does
`indexOf('=')`), then reassemble bytes. -/
def base64Decode (s : String) : Option (List Nat) :=
  b64decodeChars (s.data.takeWhile (fun c => c ≠ '='))

/-! ## UTF-8 (CryptoJS `enc.Utf8`)

`CryptoJS.enc.Utf8.stringify` decodes strictly
(`decodeURIComponent(escape(...))` throws `URIError` on malformed input,
which `decryptData`'s `catch` turns into `null`); `Utf8.parse` encodes. -/

/-- UTF-8 encoding of one Unicode scalar value. -/
def utf8EncodeChar (c : Nat) : List Nat :=
  if c < 0x80 then [c]
  else if c < 0x800 then [0xc0 + c / 64, 0x80 + c % 64]
  else if c < 0x10000 then [0xe0 + c / 4096, 0x80 + c / 64 % 64, 0x80 + c % 64]
  else [0xf0 + c / 262144, 0x80 + c / 4096 % 64, 0x80 + c / 64 % 64, 0x80 + c % 64]

/-- `CryptoJS.enc.Utf8.parse`: a string to its UTF-8 bytes. -/
def utf8Encode (s : String) : List Nat :=
  (s.data.map fun c => utf8EncodeChar c.toNat).flatten

/-- A UTF-8 continuation byte. -/
def isUtf8Cont (b : Nat) : Bool := 0x80 ≤ b && b < 0xc0

/-- Strict UTF-8 decoding to Unicode scalar values: rejects bad lead bytes,
overlong forms, surrogates and out-of-range code points, as
`decodeURIComponent` does. -/
def utf8DecodeCps : List Nat → Option (List Nat)
  | [] => some []
  | b :: rest =>
    if b < 0x80 then (utf8DecodeCps rest).map (b :: ·)
    else
      match rest with
      | [] => none
      | b1 :: rest1 =>
        if b < 0xe0 then
          if 0xc2 ≤ b ∧ isUtf8Cont b1 then
            (utf8DecodeCps rest1).map (((b - 0xc0) * 64 + (b1 - 0x80)) :: ·)
          else none
        else
          match rest1 with
          | [] => none
          | b2 :: rest2 =>
            if b < 0xf0 then
              if isUtf8Cont b1 ∧ isUtf8Cont b2 ∧
                 0x800 ≤ (b - 0xe0) * 4096 + (b1 - 0x80) * 64 + (b2 - 0x80) ∧
                 ¬(0xd800 ≤ (b - 0xe0) * 4096 + (b1 - 0x80) * 64 + (b2 - 0x80) ∧
                   (b - 0xe0) * 4096 + (b1 - 0x80) * 64 + (b2 - 0x80) < 0xe000) then
                (utf8DecodeCps rest2).map
                  (((b - 0xe0) * 4096 + (b1 - 0x80) * 64 + (b2 - 0x80)) :: ·)
              else none
            else
              match rest2 with
              | [] => none
              | b3 :: rest3 =>
                if b ≤ 0xf4 then
                  if isUtf8Cont b1 ∧ isUtf8Cont b2 ∧ isUtf8Cont b3 ∧
                     0x10000 ≤ (b - 0xf0) * 262144 + (b1 - 0x80) * 4096 +
                       (b2 - 0x80) * 64 + (b3 - 0x80) ∧
                     (b - 0xf0) * 262144 + (b1 - 0x80) * 4096 +
                       (b2 - 0x80) * 64 + (b3 - 0x80) < 0x110000 then
                    (utf8DecodeCps rest3).map
                      (((b - 0xf0) * 262144 + (b1 - 0x80) * 4096 +
                        (b2 - 0x80) * 64 + (b3 - 0x80)) :: ·)
                  else none
                else none

/-- A Unicode scalar value back to a `Char`; `none` outside the valid range. -/
def charOfCodepoint (n : Nat) : Option Char :=
  if h : n.isValidChar then some (Char.ofNatAux n h) else none

/-- `CryptoJS.enc.Utf8.stringify`: bytes to a string, `none` on malformed
UTF-8. -/
def utf8DecodeStr (bytes : List Nat) : Option String :=
  (utf8DecodeCps bytes).bind fun cps => (cps.mapM charOfCodepoint).map String.mk

/-! ## JSON (`JSON.stringify` / `JSON.parse`)

The values `encryptData` serializes are modelled by a JSON value type whose
numbers are integers (the doubles the vault records carry — ids, timestamps —
are integer-valued; fractional literals are outside the model).  `jsonParse`
returning `none` models a thrown `SyntaxError` (caught in `decryptData`). -/

/-- JSON values. -/
inductive Json where
  | null : Json
  | bool : Bool → Json
  | num : Int → Json
  | str : String → Json
  | arr : List Json → Json
  | obj : List (String × Json) → Json

/-- `JSON.stringify` escaping of one string character: `"`, `\`, the short
control escapes, and `\u00XX` for other control characters. -/
def jsonEscapeChar (c : Char) : List Char :=
  if c = '"' then ['\\', '"']
  else if c = '\\' then ['\\', '\\']
  else if c = '\x08' then ['\\', 'b']
  else if c = '\x09' then ['\\', 't']
  else if c = '\x0a' then ['\\', 'n']
  else if c = '\x0c' then ['\\', 'f']
  else if c = '\x0d' then ['\\', 'r']
  else if c.toNat < 0x20 then
    ['\\', 'u', '0', '0', hexDigitChars.getD (c.toNat / 16) '0',
     hexDigitChars.getD (c.toNat % 16) '0']
  else [c]

/-- `JSON.stringify` of a string value, quotes included. -/
def jsonStringifyStr (s : String) : List Char :=
  '"' :: (s.data.map jsonEscapeChar).flatten ++ ['"']

mutual

/-- `JSON.stringify` (no spacing), character list form. -/
def jsonStringifyV : Json → List Char
  | .null => "null".data
  | .bool true => "true".data
  | .bool false => "false".data
  | .num i => (toString i).data
  | .str s => jsonStringifyStr s
  | .arr xs => '[' :: jsonStringifyArr xs ++ [']']
  | .obj kvs => '\x7b' :: jsonStringifyObj kvs ++ ['\x7d']

/-- Comma-separated array elements. -/
def jsonStringifyArr : List Json → List Char
  | [] => []
  | [x] => jsonStringifyV x
  | x :: rest => jsonStringifyV x ++ ',' :: jsonStringifyArr rest

/-- Comma-separated `"key":value` members. -/
def jsonStringifyObj : List (String × Json) → List Char
  | [] => []
  | [(k, v)] => jsonStringifyStr k ++ ':' :: jsonStringifyV v
  | (k, v) :: rest => jsonStringifyStr k ++ ':' :: jsonStringifyV v ++ ',' :: jsonStringifyObj rest

end

/-- `JSON.stringify(data)`. -/
def jsonStringify (v : Json) : String := String.mk (jsonStringifyV v)

/-- JSON insignificant whitespace. -/
def jsonSkipWs (l : List Char) : List Char :=
  l.dropWhile fun c => c = ' ' ∨ c = '\x09' ∨ c = '\x0a' ∨ c = '\x0d'

/-- Parse the body of a JSON string literal (the opening quote already
consumed), returning the characters and the rest of the input.  `\uXXXX`
escapes outside the surrogate range are supported; surrogate escapes are
outside the model (Lean strings carry scalar values only). -/
def jsonParseStr (fuel : Nat) (l : List Char) : Option (List Char × List Char) :=
  match fuel with
  | 0 => none
  | fuel + 1 =>
    match l with
    | [] => none
    | '"' :: rest => some ([], rest)
    | '\\' :: e :: rest =>
      let cont (c : Char) (rest' : List Char) : Option (List Char × List Char) :=
        (jsonParseStr fuel rest').map fun r => (c :: r.1, r.2)
      match e with
      | '"' => cont '"' rest
      | '\\' => cont '\\' rest
      | '/' => cont '/' rest
      | 'b' => cont '\x08' rest
      | 'f' => cont '\x0c' rest
      | 'n' => cont '\x0a' rest
      | 'r' => cont '\x0d' rest
      | 't' => cont '\x09' rest
      | 'u' =>
        (match rest with
         | h1 :: h2 :: h3 :: h4 :: rest' =>
           match hexVal h1, hexVal h2, hexVal h3, hexVal h4 with
           | some v1, some v2, some v3, some v4 =>
             match charOfCodepoint (v1 * 4096 + v2 * 256 + v3 * 16 + v4) with
             | some c => cont c rest'
             | none => none
           | _, _, _, _ => none
         | _ => none)
      | _ => none
    | c :: rest => if c.toNat < 0x20 then none else
        (jsonParseStr fuel rest).map fun r => (c :: r.1, r.2)

/-- Parse a run of decimal digits. -/
def jsonParseDigits : List Char → Option (Nat × List Char)
  | l =>
    let digits := l.takeWhile charIsDigit
    if digits = [] then none
    else some (digits.foldl (fun a c => 10 * a + (c.toNat - '0'.toNat)) 0, l.drop digits.length)

mutual

/-- Fueled recursive-descent `JSON.parse` for one value; returns the value
and the unconsumed input. -/
def jsonParseV (fuel : Nat) (l : List Char) : Option (Json × List Char) :=
  match fuel with
  | 0 => none
  | fuel + 1 =>
    match jsonSkipWs l with
    | [] => none
    | c :: rest =>
      if c = 'n' then
        match rest with
        | 'u' :: 'l' :: 'l' :: rest' => some (.null, rest')
        | _ => none
      else if c = 't' then
        match rest with
        | 'r' :: 'u' :: 'e' :: rest' => some (.bool true, rest')
        | _ => none
      else if c = 'f' then
        match rest with
        | 'a' :: 'l' :: 's' :: 'e' :: rest' => some (.bool false, rest')
        | _ => none
      else if c = '"' then
        (jsonParseStr fuel rest).map fun r => (.str (String.mk r.1), r.2)
      else if c = '[' then
        match jsonSkipWs rest with
        | ']' :: rest' => some (.arr [], rest')
        | _ => (jsonParseElems fuel rest).map fun r => (.arr r.1, r.2)
      else if c = '\x7b' then
        match jsonSkipWs rest with
        | '\x7d' :: rest' => some (.obj [], rest')
        | _ => (jsonParseMembers fuel rest).map fun r => (.obj r.1, r.2)
      else if c = '-' then
        (jsonParseDigits rest).map fun r => (.num (-(r.1 : Int)), r.2)
      else if charIsDigit c then
        (jsonParseDigits (c :: rest)).map fun r => (.num (r.1 : Int), r.2)
      else none

/-- One or more comma-separated array elements followed by `]`. -/
def jsonParseElems (fuel : Nat) (l : List Char) : Option (List Json × List Char) :=
  match fuel with
  | 0 => none
  | fuel + 1 =>
    match jsonParseV fuel l with
    | none => none
    | some (v, rest) =>
      match jsonSkipWs rest with
      | ',' :: rest' => (jsonParseElems fuel rest').map fun r => (v :: r.1, r.2)
      | ']' :: rest' => some ([v], rest')
      | _ => none

/-- One or more comma-separated `"key": value` members followed by `}`. -/
def jsonParseMembers (fuel : Nat) (l : List Char) :
    Option (List (String × Json) × List Char) :=
  match fuel with
  | 0 => none
  | fuel + 1 =>
    match jsonSkipWs l with
    | '"' :: rest =>
      match jsonParseStr fuel rest with
      | none => none
      | some (k, rest1) =>
        match jsonSkipWs rest1 with
        | ':' :: rest2 =>
          match jsonParseV fuel rest2 with
          | none => none
          | some (v, rest3) =>
            match jsonSkipWs rest3 with
            | ',' :: rest4 =>
              (jsonParseMembers fuel rest4).map fun r => ((String.mk k, v) :: r.1, r.2)
            | '\x7d' :: rest4 => some ([(String.mk k, v)], rest4)
            | _ => none
        | _ => none
    | _ => none

end

/-- `JSON.parse(s)`: parse one value and require only whitespace after it. -/
def jsonParse (s : String) : Option Json :=
  match jsonParseV (s.length + 1) s.data with
  | some (v, rest) => if jsonSkipWs rest = [] then some v else none
  | none => none

/-! ## AES-256 and CryptoJS CTR mode

`CryptoJS.AES` with `mode: CryptoJS.mode.CTR, padding: CryptoJS.pad.NoPadding`.
The block cipher is standard AES (the CryptoJS implementation is the usual
T-table formulation of the same function; here the round transformations are
written out directly).  The 16-byte state is kept in input order (bytes
`4c + r` form column `c`). -/

/-- The AES S-box. -/
def sbox : List Nat := [
  0x63, 0x7c, 0x77, 0x7b, 0xf2, 0x6b, 0x6f, 0xc5,
  0x30, 0x01, 0x67, 0x2b, 0xfe, 0xd7, 0xab, 0x76,
  0xca, 0x82, 0xc9, 0x7d, 0xfa, 0x59, 0x47, 0xf0,
  0xad, 0xd4, 0xa2, 0xaf, 0x9c, 0xa4, 0x72, 0xc0,
  0xb7, 0xfd, 0x93, 0x26, 0x36, 0x3f, 0xf7, 0xcc,
  0x34, 0xa5, 0xe5, 0xf1, 0x71, 0xd8, 0x31, 0x15,
  0x04, 0xc7, 0x23, 0xc3, 0x18, 0x96, 0x05, 0x9a,
  0x07, 0x12, 0x80, 0xe2, 0xeb, 0x27, 0xb2, 0x75,
  0x09, 0x83, 0x2c, 0x1a, 0x1b, 0x6e, 0x5a, 0xa0,
  0x52, 0x3b, 0xd6, 0xb3, 0x29, 0xe3, 0x2f, 0x84,
  0x53, 0xd1, 0x00, 0xed, 0x20, 0xfc, 0xb1, 0x5b,
  0x6a, 0xcb, 0xbe, 0x39, 0x4a, 0x4c, 0x58, 0xcf,
  0xd0, 0xef, 0xaa, 0xfb, 0x43, 0x4d, 0x33, 0x85,
  0x45, 0xf9, 0x02, 0x7f, 0x50, 0x3c, 0x9f, 0xa8,
  0x51, 0xa3, 0x40, 0x8f, 0x92, 0x9d, 0x38, 0xf5,
  0xbc, 0xb6, 0xda, 0x21, 0x10, 0xff, 0xf3, 0xd2,
  0xcd, 0x0c, 0x13, 0xec, 0x5f, 0x97, 0x44, 0x17,
  0xc4, 0xa7, 0x7e, 0x3d, 0x64, 0x5d, 0x19, 0x73,
  0x60, 0x81, 0x4f, 0xdc, 0x22, 0x2a, 0x90, 0x88,
  0x46, 0xee, 0xb8, 0x14, 0xde, 0x5e, 0x0b, 0xdb,
  0xe0, 0x32, 0x3a, 0x0a, 0x49, 0x06, 0x24, 0x5c,
  0xc2, 0xd3, 0xac, 0x62, 0x91, 0x95, 0xe4, 0x79,
  0xe7, 0xc8, 0x37, 0x6d, 0x8d, 0xd5, 0x4e, 0xa9,
  0x6c, 0x56, 0xf4, 0xea, 0x65, 0x7a, 0xae, 0x08,
  0xba, 0x78, 0x25, 0x2e, 0x1c, 0xa6, 0xb4, 0xc6,
  0xe8, 0xdd, 0x74, 0x1f, 0x4b, 0xbd, 0x8b, 0x8a,
  0x70, 0x3e, 0xb5, 0x66, 0x48, 0x03, 0xf6, 0x0e,
  0x61, 0x35, 0x57, 0xb9, 0x86, 0xc1, 0x1d, 0x9e,
  0xe1, 0xf8, 0x98, 0x11, 0x69, 0xd9, 0x8e, 0x94,
  0x9b, 0x1e, 0x87, 0xe9, 0xce, 0x55, 0x28, 0xdf,
  0x8c, 0xa1, 0x89, 0x0d, 0xbf, 0xe6, 0x42, 0x68,
  0x41, 0x99, 0x2d, 0x0f, 0xb0, 0x54, 0xbb, 0x16]

/-- The CryptoJS `RCON` table (index 0 unused). -/
def rcon : List Nat := [0x00, 0x01, 0x02, 0x04, 0x08, 0x10, 0x20, 0x40, 0x80, 0x1b, 0x36]

/-- Big-endian 32-bit word to four bytes. -/
def wordToBytes (w : Nat) : List Nat :=
  [w / 2 ^ 24 % 256, w / 2 ^ 16 % 256, w / 2 ^ 8 % 256, w % 256]

/-- Word list to byte list (big-endian, as CryptoJS `WordArray`s serialize). -/
def wordsToBytes (ws : List Nat) : List Nat := (ws.map wordToBytes).flatten

/-- Four big-endian bytes per 32-bit word; a trailing incomplete group is
dropped (inputs are whole words). -/
def bytesToWords : List Nat → List Nat
  | b0 :: b1 :: b2 :: b3 :: rest => (b0 * 2 ^ 24 + b1 * 2 ^ 16 + b2 * 2 ^ 8 + b3) :: bytesToWords rest
  | _ => []

/-- S-box applied to each byte of a word. -/
def subWord (w : Nat) : Nat :=
  sbox.getD (w / 2 ^ 24 % 256) 0 * 2 ^ 24 + sbox.getD (w / 2 ^ 16 % 256) 0 * 2 ^ 16 +
  sbox.getD (w / 2 ^ 8 % 256) 0 * 2 ^ 8 + sbox.getD (w % 256) 0

/-- Rotate a 32-bit word left by one byte: `(t << 8) | (t >>> 24)`. -/
def rotWordL (w : Nat) : Nat := w % 2 ^ 24 * 256 + w / 2 ^ 24

/-- One row of the CryptoJS key-schedule loop. -/
def keyExpandStep (nk : Nat) (keyWords : List Nat) (acc : List Nat) (ksRow : Nat) : List Nat :=
  if ksRow < nk then acc ++ [keyWords.getD ksRow 0]
  else
    let t0 := acc.getD (ksRow - 1) 0
    let t :=
      if ksRow % nk = 0 then
        subWord (rotWordL t0) ^^^ rcon.getD (ksRow / nk) 0 * 2 ^ 24
      else if nk > 6 ∧ ksRow % nk = 4 then subWord t0
      else t0
    acc ++ [acc.getD (ksRow - nk) 0 ^^^ t]

/-- The AES key schedule: `(nRounds + 1) * 4` words from the key words. -/
def keyExpansion (keyBytes : List Nat) : List Nat :=
  let keyWords := bytesToWords keyBytes
  let nk := keyWords.length
  let nr := nk + 6
  (List.range ((nr + 1) * 4)).foldl (keyExpandStep nk keyWords) []

/-- The 16 bytes of round key `r` from the key schedule. -/
def roundKeyBytes (ks : List Nat) (r : Nat) : List Nat :=
  wordsToBytes [ks.getD (4 * r) 0, ks.getD (4 * r + 1) 0, ks.getD (4 * r + 2) 0,
    ks.getD (4 * r + 3) 0]

/-- `AddRoundKey`. -/
def addRoundKey (st rk : List Nat) : List Nat := List.zipWith (· ^^^ ·) st rk

/-- `SubBytes`. -/
def subBytesState (st : List Nat) : List Nat := st.map fun b => sbox.getD b 0

/-- The index permutation of `ShiftRows` on the input-ordered state: byte `i`
of the new state is byte `(i + 4 * (i % 4)) % 16` of the old one. -/
def shiftRowsState (st : List Nat) : List Nat :=
  (List.range 16).map fun i => st.getD ((i + 4 * (i % 4)) % 16) 0

/-- Multiplication by `x` in GF(2^8). -/
def xtime (b : Nat) : Nat := 2 * b % 256 ^^^ (if b ≥ 128 then 0x1b else 0)

/-- `MixColumns` on one column. -/
def mixColumn (a0 a1 a2 a3 : Nat) : List Nat :=
  [xtime a0 ^^^ (xtime a1 ^^^ a1) ^^^ a2 ^^^ a3,
   a0 ^^^ xtime a1 ^^^ (xtime a2 ^^^ a2) ^^^ a3,
   a0 ^^^ a1 ^^^ xtime a2 ^^^ (xtime a3 ^^^ a3),
   (xtime a0 ^^^ a0) ^^^ a1 ^^^ a2 ^^^ xtime a3]

/-- `MixColumns` on the whole state (four consecutive bytes per column). -/
def mixColumnsState : List Nat → List Nat
  | a0 :: a1 :: a2 :: a3 :: rest => mixColumn a0 a1 a2 a3 ++ mixColumnsState rest
  | l => l

/-- AES block encryption (any CryptoJS-supported key size; the source's
256-bit keys give `nr = 14`). -/
def aesEncryptBlock (keyBytes block : List Nat) : List Nat :=
  let ks := keyExpansion keyBytes
  let nr := keyBytes.length / 4 + 6
  let st0 := addRoundKey block (roundKeyBytes ks 0)
  let stN := (List.range (nr - 1)).foldl
    (fun st i => addRoundKey (mixColumnsState (shiftRowsState (subBytesState st)))
      (roundKeyBytes ks (i + 1))) st0
  addRoundKey (shiftRowsState (subBytesState stN)) (roundKeyBytes ks nr)

/-- Counter block `i` of CryptoJS CTR mode for the source's IVs.

With the source's 96-bit nonce, `Hex.parse` yields a three-word array; the
CTR implementation copies it, encrypts it as a block (the absent fourth word
reads as `undefined`, which the bit operations coerce to 0), and then
executes `counter[3] = (counter[3] + 1) | 0`, which sets the fourth word to
`(undefined + 1) | 0 = 0`.  Hence blocks 0 and 1 both use counter word 0,
and block `i ≥ 1` uses word `i - 1`.  A full 16-byte IV has a real fourth
word and increments normally. -/
def ctrCounterBlock (ivBytes : List Nat) (i : Nat) : List Nat :=
  if ivBytes.length = 16 then
    ivBytes.take 12 ++ wordToBytes ((bytesToWords ivBytes).getD 3 0 + i)
  else
    (ivBytes ++ List.replicate 12 0).take 12 ++
      wordToBytes (if i = 0 then 0 else (i - 1) % 2 ^ 32)

/-- The CTR keystream: the encryptions of the successive counter blocks. -/
def ctrKeystream (keyBytes ivBytes : List Nat) (nBlocks : Nat) : List Nat :=
  ((List.range nBlocks).map fun i => aesEncryptBlock keyBytes (ctrCounterBlock ivBytes i)).flatten

/-! ## `encryptData` / `decryptData` -/

/-- The `{ encrypted, nonce }` pair returned by `encryptData`. -/
structure CipherRecord where
  encrypted : String
  nonce : String
deriving Repr, DecidableEq

/-- `encryptData(data, key)` from `crypto.js`.  The source draws the 12
random nonce bytes from `CryptoJS.lib.WordArray.random`; they are passed in
as `nonceBytes`. -/
def encryptData (data : Json) (key : String) (nonceBytes : List Nat) : CipherRecord :=
  let nonce := hexEncode nonceBytes
  let jsonData := jsonStringify data
  let pt := utf8Encode jsonData
  let keyBytes := hexParseCJ key
  let ks := ctrKeystream keyBytes (hexParseCJ nonce) ((pt.length + 15) / 16)
  let ct := List.zipWith (· ^^^ ·) pt ks
  { encrypted := base64Encode ct, nonce := nonce }

/-- `decryptData(encryptedData, nonce, key)` from `crypto.js`: base64-decode,
XOR the same keystream, UTF-8-decode, `JSON.parse`; every failure inside the
`try` block yields `null` (`none`). -/
def decryptData (encryptedData nonce key : String) : Option Json :=
  match base64Decode encryptedData with
  | none => none
  | some ct =>
    let keyBytes := hexParseCJ key
    let ivBytes := hexParseCJ nonce
    let ks := ctrKeystream keyBytes ivBytes ((ct.length + 15) / 16)
    let pt := List.zipWith (· ^^^ ·) ct ks
    match utf8DecodeStr pt with
    | none => none
    | some jsonString => jsonParse jsonString

/-! ## SHA-256, HMAC, PBKDF2 and `deriveKey`

`deriveKey` calls `CryptoJS.PBKDF2(masterPassword, Hex.parse(salt),
{ keySize: 256/32, iterations: 100000, hasher: SHA256 })` and hex-encodes the
result.  The hash is fully defined (and validated on test vectors below);
the claims about `deriveKey` are settled through structural length facts, not
by evaluating the 100000 iterations. -/

/-- The 64 SHA-256 round constants (the fractional cube-root words of the
first 64 primes), in decimal. -/
def shaK : List Nat := [
  1116352408, 1899447441, 3049323471, 3921009573, 961987163, 1508970993,
  2453635748, 2870763221, 3624381080, 310598401, 607225278, 1426881987,
  1925078388, 2162078206, 2614888103, 3248222580, 3835390401, 4022224774,
  264347078, 604807628, 770255983, 1249150122, 1555081692, 1996064986,
  2554220882, 2821834349, 2952996808, 3210313671, 3336571891, 3584528711,
  113926993, 338241895, 666307205, 773529912, 1294757372, 1396182291,
  1695183700, 1986661051, 2177026350, 2456956037, 2730485921, 2820302411,
  3259730800, 3345764771, 3516065817, 3600352804, 4094571909, 275423344,
  430227734, 506948616, 659060556, 883997877, 958139571, 1322822218,
  1537002063, 1747873779, 1955562222, 2024104815, 2227730452, 2361852424,
  2428436474, 2756734187, 3204031479, 3329325298]

/-- The eight SHA-256 working variables. -/
structure Sha256State where
  a : Nat
  b : Nat
  c : Nat
  d : Nat
  e : Nat
  f : Nat
  g : Nat
  h : Nat

/-- The SHA-256 initial hash value (fractional square-root words of the
first 8 primes), in decimal. -/
def shaInit : Sha256State :=
  ⟨1779033703, 3144134277, 1013904242, 2773480762,
   1359893119, 2600822924, 528734635, 1541459225⟩

/-- Rotate a 32-bit word right. -/
def rotr32 (x n : Nat) : Nat := (x / 2 ^ n + x % 2 ^ n * 2 ^ (32 - n)) % 2 ^ 32

/-- Append the next word of the SHA-256 message schedule. -/
def shaExtendStep (w : List Nat) : List Nat :=
  let i := w.length
  let x15 := w.getD (i - 15) 0
  let x2 := w.getD (i - 2) 0
  let s0 := rotr32 x15 7 ^^^ rotr32 x15 18 ^^^ x15 / 2 ^ 3
  let s1 := rotr32 x2 17 ^^^ rotr32 x2 19 ^^^ x2 / 2 ^ 10
  w ++ [(w.getD (i - 16) 0 + s0 + w.getD (i - 7) 0 + s1) % 2 ^ 32]

/-- Iterate a function `n` times. -/
def iterateN (f : α → α) : Nat → α → α
  | 0, x => x
  | n + 1, x => iterateN f n (f x)

/-- One SHA-256 compression round. -/
def shaCompressStep (w : List Nat) (st : Sha256State) (i : Nat) : Sha256State :=
  let s1 := rotr32 st.e 6 ^^^ rotr32 st.e 11 ^^^ rotr32 st.e 25
  let ch := st.e &&& st.f ^^^ (st.e ^^^ 0xffffffff) &&& st.g
  let temp1 := (st.h + s1 + ch + shaK.getD i 0 + w.getD i 0) % 2 ^ 32
  let s0 := rotr32 st.a 2 ^^^ rotr32 st.a 13 ^^^ rotr32 st.a 22
  let maj := st.a &&& st.b ^^^ st.a &&& st.c ^^^ st.b &&& st.c
  let temp2 := (s0 + maj) % 2 ^ 32
  ⟨(temp1 + temp2) % 2 ^ 32, st.a, st.b, st.c, (st.d + temp1) % 2 ^ 32, st.e, st.f, st.g⟩

/-- Compress one 64-byte chunk into the running state. -/
def shaCompressChunk (st : Sha256State) (chunk : List Nat) : Sha256State :=
  let w := iterateN shaExtendStep 48 (bytesToWords chunk)
  let st' := (List.range 64).foldl (shaCompressStep w) st
  ⟨(st.a + st'.a) % 2 ^ 32, (st.b + st'.b) % 2 ^ 32, (st.c + st'.c) % 2 ^ 32,
   (st.d + st'.d) % 2 ^ 32, (st.e + st'.e) % 2 ^ 32, (st.f + st'.f) % 2 ^ 32,
   (st.g + st'.g) % 2 ^ 32, (st.h + st'.h) % 2 ^ 32⟩

/-- Split a byte list into 64-byte chunks (fuel-recursive so that the kernel
can evaluate it; `fuel = l.length` always suffices since every step consumes
64 bytes). -/
def chunks64Fuel : Nat → List Nat → List (List Nat)
  | 0, _ => []
  | _, [] => []
  | fuel + 1, l => l.take 64 :: chunks64Fuel fuel (l.drop 64)

/-- Split a byte list into 64-byte chunks. -/
def chunks64 (l : List Nat) : List (List Nat) := chunks64Fuel l.length l

/-- A 64-bit big-endian length field. -/
def int64be (n : Nat) : List Nat := wordToBytes (n / 2 ^ 32) ++ wordToBytes n

/-- SHA-256 of a byte message. -/
def sha256 (msg : List Nat) : List Nat :=
  let padded := msg ++ 0x80 :: List.replicate ((119 - msg.length % 64) % 64) 0 ++
    int64be (8 * msg.length)
  let final := (chunks64 padded).foldl shaCompressChunk shaInit
  wordsToBytes [final.a, final.b, final.c, final.d, final.e, final.f, final.g, final.h]

/-- HMAC-SHA-256 (`CryptoJS.algo.HMAC` with `SHA256`). -/
def hmacSha256 (key msg : List Nat) : List Nat :=
  let k0 := if key.length > 64 then sha256 key else key
  let k1 := k0 ++ List.replicate (64 - k0.length) 0
  let opad := k1.map (· ^^^ 0x5c)
  let ipad := k1.map (· ^^^ 0x36)
  sha256 (opad ++ sha256 (ipad ++ msg))

/-- Byte-wise XOR of equal-length lists (`block ^= intermediate`). -/
def xorBytes (u v : List Nat) : List Nat := List.zipWith (· ^^^ ·) u v

/-- `iterations - 1` refinement steps of one PBKDF2 block:
`intermediate = HMAC(password, intermediate); block ^= intermediate`. -/
def pbkdf2Iterate (password : List Nat) : List Nat → List Nat → Nat → List Nat
  | block, _, 0 => block
  | block, u, n + 1 =>
    let u' := hmacSha256 password u
    pbkdf2Iterate password (xorBytes block u') u' n

/-- One PBKDF2 output block `T_blockIndex`. -/
def pbkdf2Block (password salt : List Nat) (iterations blockIndex : Nat) : List Nat :=
  let u1 := hmacSha256 password (salt ++ wordToBytes blockIndex)
  pbkdf2Iterate password u1 u1 (iterations - 1)

/-- `CryptoJS.PBKDF2` with the SHA-256 hasher: concatenate blocks until
`keySize` words are available, then truncate. -/
def pbkdf2Sha256 (password salt : List Nat) (iterations keySizeWords : Nat) : List Nat :=
  (((List.range ((keySizeWords + 7) / 8)).map fun i =>
      pbkdf2Block password salt iterations (i + 1)).flatten).take (keySizeWords * 4)

/-- `PBKDF2_ITERATIONS` from `crypto.js`. -/
def PBKDF2_ITERATIONS : Nat := 100000

/-- `KEY_SIZE = 256 / 32` words from `crypto.js`. -/
def KEY_SIZE : Nat := 256 / 32

/-- `SALT_SIZE = 128 / 8` bytes from `crypto.js` (the expected salt is 16
bytes, i.e. 32 hex characters; `deriveKey` itself never checks this). -/
def SALT_SIZE : Nat := 128 / 8

/-- `deriveKey(masterPassword, salt)` from `crypto.js`: PBKDF2-SHA256 of the
UTF-8 password with the hex-parsed salt, returned as a hex string.  There is
no validation anywhere: `Hex.parse` accepts any string. -/
def deriveKey (masterPassword salt : String) : String :=
  hexEncode (pbkdf2Sha256 (utf8Encode masterPassword) (hexParseCJ salt)
    PBKDF2_ITERATIONS KEY_SIZE)

/-! ## Session lifecycle (`AuthContext.js`)

The React provider state (`user`, `encryptionKey`, `isLocked`,
`lastActivity`) and the browser `sessionStorage` are modelled as one record;
the backend API responses are inputs.  Fields that never interact with the
derived key (`language`, `autoLockMinutes`, `isLoading`) are omitted. -/

/-- The merged user object (`{ ...userData, ...meResponse.data }`) as far as
the session lifecycle reads it. -/
structure UserData where
  access_token : String
  master_key_salt : String
deriving Repr, DecidableEq

/-- `response.data` of `authAPI.login` / `authAPI.register`. -/
structure LoginResponse where
  access_token : String
deriving Repr, DecidableEq

/-- `meResponse.data` of `authAPI.getMe`. -/
structure MeResponse where
  master_key_salt : String
deriving Repr, DecidableEq

/-- `sessionStorage.setItem`: replace the first binding of the key or append. -/
def setItem : List (String × String) → String → String → List (String × String)
  | [], k, v => [(k, v)]
  | (k', v') :: rest, k, v =>
    if k' = k then (k, v) :: rest else (k', v') :: setItem rest k v

/-- `sessionStorage.removeItem`: drop the bindings of the key. -/
def removeItem : List (String × String) → String → List (String × String)
  | [], _ => []
  | (k', v') :: rest, k =>
    if k' = k then removeItem rest k else (k', v') :: removeItem rest k

/-- `sessionStorage.getItem`. -/
def getItem : List (String × String) → String → Option String
  | [], _ => none
  | (k', v) :: rest, k => if k' = k then some v else getItem rest k

/-- The provider state. -/
structure AuthState where
  user : Option UserData
  encryptionKey : Option String
  isLocked : Bool
  lastActivity : Nat
  sessionStorage : List (String × String)
deriving Repr, DecidableEq

/-- The initial provider state. -/
def initialAuthState : AuthState :=
  { user := none, encryptionKey := none, isLocked := false, lastActivity := 0,
    sessionStorage := [] }

/-- Serialization of the login response for `sessionStorage.setItem('pivault_user', ...)`. -/
def loginRespToJson (resp : LoginResponse) : String :=
  jsonStringify (Json.obj [("access_token", Json.str resp.access_token)])

/-- `login(email, password)` (and, identically, `register`): store the token
and user, derive the key from the master password and the server salt, store
it under `pivault_key`, and unlock. -/
def login (st : AuthState) (password : String) (resp : LoginResponse) (me : MeResponse)
    (now : Nat) : AuthState :=
  let s1 := setItem st.sessionStorage "pivault_token" resp.access_token
  let s2 := setItem s1 "pivault_user" (loginRespToJson resp)
  let fullUser : UserData :=
    { access_token := resp.access_token, master_key_salt := me.master_key_salt }
  let key := deriveKey password fullUser.master_key_salt
  let s3 := setItem s2 "pivault_key" key
  { user := some fullUser, encryptionKey := some key, isLocked := false,
    lastActivity := now, sessionStorage := s3 }

/-- `register(email, password)` — the same storage and key behaviour as
`login`. -/
def register (st : AuthState) (password : String) (resp : LoginResponse) (me : MeResponse)
    (now : Nat) : AuthState :=
  login st password resp me now

/-- `logout()`: remove the three stored items and clear the in-memory state. -/
def logout (st : AuthState) : AuthState :=
  { st with
    sessionStorage :=
      removeItem (removeItem (removeItem st.sessionStorage "pivault_token") "pivault_user")
        "pivault_key",
    user := none, encryptionKey := none, isLocked := false }

/-- `lockVault()`: drop the stored and in-memory key and mark locked. -/
def lockVault (st : AuthState) : AuthState :=
  { st with
    sessionStorage := removeItem st.sessionStorage "pivault_key",
    encryptionKey := none, isLocked := true }

/-- `unlockVault(password)`: re-derive from the stored salt and store the key
again; throws (`Except.error`) when no usable salt is present. -/
def unlockVault (st : AuthState) (password : String) (now : Nat) : Except String AuthState :=
  match st.user with
  | none => .error "No user data"
  | some u =>
    if u.master_key_salt = "" then .error "No user data"
    else
      let key := deriveKey password u.master_key_salt
      .ok { st with
            sessionStorage := setItem st.sessionStorage "pivault_key" key,
            encryptionKey := some key, isLocked := false, lastActivity := now }

/-- The all-zero 256-bit key (64 hex characters) used as `k1` in the C2
counterexample and as the witness key for C1. -/
def c2k1 : String := "0000000000000000000000000000000000000000000000000000000000000000"

/-- A fixed 12-byte nonce draw (all zero). -/
def c2nonceBytes : List Nat := [0, 0, 0, 0, 0, 0, 0, 0, 0, 0, 0, 0]

/-! # Theorems -/

/-! ## Helper lemmas: strength scorer -/

/-- For a non-empty password the result is built from one clamped score:
the `score` field is its `toNat` and the `color` field is `strengthColor`
of it. -/
theorem strength_decompose (p : String) (hp : p ≠ "") :
    ∃ f : Int, 0 ≤ f ∧ (calculatePasswordStrength p).score = f.toNat ∧
      (calculatePasswordStrength p).color = strengthColor f := by
  unfold calculatePasswordStrength
  rw [if_neg hp]
  exact ⟨_, le_max_left 0 _, rfl, rfl⟩

/-- On non-negative scores the source's `Int` color ladder agrees with the
ladder on the published `Nat` score. -/
theorem strengthColor_toNat (f : Int) (h0 : 0 ≤ f) :
    strengthColor f =
      if f.toNat ≤ 2 then "red"
      else if f.toNat ≤ 4 then "yellow"
      else if f.toNat = 5 then "orange"
      else "green" := by
  unfold strengthColor
  split_ifs <;> first | rfl | (exfalso; omega)

set_option maxHeartbeats 3200000 in
/-- The translated scorer agrees with the spec's rule table pointwise. -/
theorem scorer_matches_spec (p : String) :
    (calculatePasswordStrength p).score = (specStrengthScore p).1 ∧
    (calculatePasswordStrength p).feedback = (specStrengthScore p).2 := by
  by_cases hp : p = ""
  · subst hp; decide
  · unfold calculatePasswordStrength specStrengthScore specRuleTable
    rw [if_neg hp, if_neg hp]
    by_cases h8 : p.length ≥ 8 <;>
    by_cases h12 : p.length ≥ 12 <;>
    by_cases h16 : p.length ≥ 16 <;>
    cases hlow : p.data.any charIsLower <;>
    cases hup : p.data.any charIsUpper <;>
    cases hnum : p.data.any charIsDigit <;>
    cases hspec : p.data.any charIsSpecial <;>
    cases hdeny : commonPatterns.any (fun pat => strIncludes (strToLower p) pat) <;>
    simp [h8, h12, h16, hlow, hup, hnum, hspec, hdeny, clampScore]

/-! ## Claim C8 -/

/-- C8: the strength scorer implements the spec's ordered additive rule
table — for every password the score is the clamped rule-point sum and the
feedback codes are the failing rules' codes in rule order; the empty password
short-circuits to score 0 with feedback `["empty_password"]`; and
`score("password")` is 0 with feedback
`["add_uppercase","add_numbers","add_special","avoid_common_patterns"]`. -/
theorem C8_scorer_rule_table :
    (∀ p : String,
      (calculatePasswordStrength p).score = (specStrengthScore p).1 ∧
      (calculatePasswordStrength p).feedback = (specStrengthScore p).2) ∧
    calculatePasswordStrength "" =
      { score := 0, feedback := ["empty_password"], color := "gray" } ∧
    (calculatePasswordStrength "password").score = 0 ∧
    (calculatePasswordStrength "password").feedback =
      ["add_uppercase", "add_numbers", "add_special", "avoid_common_patterns"] :=
  ⟨scorer_matches_spec, by decide, by decide, by decide⟩

/-! ## Claim C10 -/

/-- C10: the strength result also carries a `color` field: `"gray"` for the
empty password, otherwise `"red"` when the score is at most 2, `"yellow"` up
to 4, `"orange"` at exactly 5, and `"green"` from 6 up. -/
theorem C10_strength_color (p : String) :
    (calculatePasswordStrength p).color =
      if p = "" then "gray"
      else if (calculatePasswordStrength p).score ≤ 2 then "red"
      else if (calculatePasswordStrength p).score ≤ 4 then "yellow"
      else if (calculatePasswordStrength p).score = 5 then "orange"
      else "green" := by
  by_cases hp : p = ""
  · subst hp; decide
  · obtain ⟨f, h0, hs, hc⟩ := strength_decompose p hp
    rw [if_neg hp, hc, hs, strengthColor_toNat f h0]

/-! ## Claim C9 -/

/-- C9: `copyToClipboard` writes the text and returns `true` on success,
scheduling exactly one deferred check (for a positive timeout) that clears
the clipboard only when its contents still equal the copied text and treats a
failed read as a no-op; a write failure returns `false` with nothing written
or scheduled, and no path throws. -/
theorem C9_clipboard_guard (text : String) (clearAfterMs : Int)
    (hpos : 0 < clearAfterMs) :
    (copyToClipboard text clearAfterMs true).returned = true ∧
    (copyToClipboard text clearAfterMs true).written = some text ∧
    (copyToClipboard text clearAfterMs true).scheduled =
      [{ delay := clearAfterMs, text := text }] ∧
    (∀ current : String,
      runClipboardCheck text (some current) = if current = text then some "" else none) ∧
    runClipboardCheck text none = none ∧
    copyToClipboard text clearAfterMs false =
      { returned := false, written := none, scheduled := [] } := by
  refine ⟨rfl, rfl, ?_, fun _ => rfl, rfl, rfl⟩
  simp [copyToClipboard, hpos]

/-- Witness for C9 at `("secret", 30000)`. -/
theorem C9_clipboard_guard_witness :
    ((0 : Int) < 30000) ∧
    (copyToClipboard "secret" 30000 true).scheduled = [{ delay := 30000, text := "secret" }] :=
  ⟨by decide, (C9_clipboard_guard "secret" 30000 (by decide)).2.2.1⟩

/-! ## Helper lemmas: session storage -/

/-- `getItem` after `setItem` of the same key. -/
theorem getItem_setItem_self (s : List (String × String)) (k v : String) :
    getItem (setItem s k v) k = some v := by
  induction s with
  | nil => simp [setItem, getItem]
  | cons e rest ih =>
    obtain ⟨k', v'⟩ := e
    by_cases h : k' = k <;> simp [setItem, getItem, h, ih]

/-- `getItem` after `removeItem` of the same key. -/
theorem getItem_removeItem_self (s : List (String × String)) (k : String) :
    getItem (removeItem s k) k = none := by
  induction s with
  | nil => rfl
  | cons e rest ih =>
    obtain ⟨k', v'⟩ := e
    by_cases h : k' = k <;> simp [removeItem, getItem, h, ih]

/-! ## Claim C3 -/

/-- C3 counterexample: after a concrete `login`, the browser
`sessionStorage` — storage outside the in-memory session state — holds the
derived key under `pivault_key`, refuting "no session-lifecycle operation
ever writes the derived key to any storage outside the in-memory session
state". -/
theorem C3_counterexample :
    getItem (login initialAuthState "hunter2" { access_token := "tok" }
        { master_key_salt := "00112233445566778899aabbccddeeff" } 0).sessionStorage
      "pivault_key"
      = some (deriveKey "hunter2" "00112233445566778899aabbccddeeff") ∧
    some (deriveKey "hunter2" "00112233445566778899aabbccddeeff") ≠ (none : Option String) :=
  ⟨rfl, by simp⟩

/-- C3 amended: `login`, `register` and a successful `unlockVault` write the
derived key to `sessionStorage` under `pivault_key` (besides holding it in
memory); `lockVault` and `logout` remove it from both. -/
theorem C3_session_key_storage (st : AuthState) (pw : String) (resp : LoginResponse)
    (me : MeResponse) (now : Nat) (u : UserData) :
    getItem (login st pw resp me now).sessionStorage "pivault_key"
      = some (deriveKey pw me.master_key_salt) ∧
    (login st pw resp me now).encryptionKey = some (deriveKey pw me.master_key_salt) ∧
    getItem (register st pw resp me now).sessionStorage "pivault_key"
      = some (deriveKey pw me.master_key_salt) ∧
    ((unlockVault { st with user := some u } pw now).toOption.map
        fun st' => getItem st'.sessionStorage "pivault_key")
      = (if u.master_key_salt = "" then none
         else some (some (deriveKey pw u.master_key_salt))) ∧
    getItem (lockVault st).sessionStorage "pivault_key" = none ∧
    (lockVault st).encryptionKey = none ∧
    getItem (logout st).sessionStorage "pivault_key" = none ∧
    (logout st).user = none ∧
    (logout st).encryptionKey = none := by
  refine ⟨?_, rfl, ?_, ?_, ?_, rfl, ?_, rfl, rfl⟩
  · exact getItem_setItem_self ..
  · exact getItem_setItem_self ..
  · unfold unlockVault
    by_cases h : u.master_key_salt = "" <;>
      simp [h, Except.toOption, getItem_setItem_self]
  · exact getItem_removeItem_self ..
  · exact getItem_removeItem_self ..

/-! ## Helper lemmas: output lengths of the derivation pipeline -/

/-- `wordsToBytes` yields four bytes per word. -/
theorem wordsToBytes_length (ws : List Nat) : (wordsToBytes ws).length = 4 * ws.length := by
  induction ws with
  | nil => rfl
  | cons w ws ih => simp [wordsToBytes, wordToBytes] at ih ⊢; omega

/-- SHA-256 always produces 32 bytes. -/
theorem sha256_length (msg : List Nat) : (sha256 msg).length = 32 := by
  unfold sha256
  rw [wordsToBytes_length]
  rfl

/-- HMAC-SHA-256 always produces 32 bytes. -/
theorem hmacSha256_length (key msg : List Nat) : (hmacSha256 key msg).length = 32 :=
  sha256_length _

/-- `xorBytes` of two 32-byte blocks is 32 bytes. -/
theorem xorBytes_length_32 (u v : List Nat) (hu : u.length = 32) (hv : v.length = 32) :
    (xorBytes u v).length = 32 := by
  simp [xorBytes, List.length_zipWith, hu, hv]

/-- The PBKDF2 refinement loop preserves the 32-byte block size. -/
theorem pbkdf2Iterate_length (password : List Nat) (n : Nat) :
    ∀ block u : List Nat, block.length = 32 →
      (pbkdf2Iterate password block u n).length = 32 := by
  induction n with
  | zero => intro block u h; simpa [pbkdf2Iterate] using h
  | succ n ih =>
    intro block u h
    simp only [pbkdf2Iterate]
    exact ih _ _ (xorBytes_length_32 _ _ h (hmacSha256_length ..))

/-- Every PBKDF2 block is 32 bytes. -/
theorem pbkdf2Block_length (password salt : List Nat) (iterations blockIndex : Nat) :
    (pbkdf2Block password salt iterations blockIndex).length = 32 := by
  unfold pbkdf2Block
  exact pbkdf2Iterate_length _ _ _ _ (hmacSha256_length ..)

/-- With the source's `keySize` of 8 words, PBKDF2 outputs exactly 32 bytes. -/
theorem pbkdf2Sha256_length (password salt : List Nat) (iterations : Nat) :
    (pbkdf2Sha256 password salt iterations 8).length = 32 := by
  unfold pbkdf2Sha256
  simp [List.length_take, List.range_succ, pbkdf2Block_length]

/-- `hexEncode` yields two characters per byte. -/
theorem hexEncode_length (bytes : List Nat) : (hexEncode bytes).length = 2 * bytes.length := by
  unfold hexEncode
  show ((bytes.map byteToHex).flatten).length = 2 * bytes.length
  induction bytes with
  | nil => rfl
  | cons b bs ih => simp [byteToHex] at ih ⊢; omega

/-- `deriveKey` returns a 64-character hex string for every secret and every
salt — valid hex or not, of any length. -/
theorem deriveKey_length (secret salt : String) : (deriveKey secret salt).length = 64 := by
  unfold deriveKey
  rw [hexEncode_length, show KEY_SIZE = 8 from rfl, pbkdf2Sha256_length]

/-! ## Claim C7 -/

/-- C7 counterexample: `"zz!"` is not hex and not the expected 32-hex-digit
(16-byte) salt length, yet `deriveKey` returns a 64-character key for it —
there is no `MalformedSalt` failure. -/
theorem C7_counterexample :
    ¬ ("zz!".data.all fun c => (hexVal c).isSome) = true ∧
    "zz!".length ≠ 2 * SALT_SIZE ∧
    (deriveKey "pw" "zz!").length = 64 :=
  ⟨by decide, by decide, deriveKey_length "pw" "zz!"⟩

/-- C7 amended: `deriveKey` performs no salt validation at all — for every
secret and every salt string (malformed or not) it returns a 64-character
derived key rather than failing with `MalformedSalt`. -/
theorem C7_deriveKey_never_fails (secret salt : String) :
    (deriveKey secret salt).length = 64 :=
  deriveKey_length secret salt

/-! ## Helper lemmas: password generator -/

/-- `String.length` through `String.mk`. -/
theorem string_length_data (s : String) : s.length = s.data.length := rfl

/-- The injection loop never changes the array length. -/
theorem injectReqs_length (positions : Nat → Nat) (len : Nat) (reqs : List (List Char)) :
    ∀ (arr : List Char) (idx : Nat), (injectReqs positions len arr reqs idx).length = arr.length := by
  induction reqs with
  | nil => intro arr idx; rfl
  | cons chars rest ih =>
    intro arr idx
    simp [injectReqs, ih, List.length_set]

/-- The concrete shape of a C4-policy run: a 62-alphabet base draw followed by
the three coverage injections (lowercase, then uppercase, then digits). -/
theorem c4_shape (array positions : Nat → Nat) :
    (generatePassword c4opts array positions).data =
      ((((List.range 12).map fun i => alnumAlphabet.getD (array i % 62) 'a').set
          (positions 0 % 12) (lowerAlphabet.getD (positions 0 % 26) 'a')).set
        (positions 1 % 12) (upperAlphabet.getD (positions 1 % 26) 'a')).set
        (positions 2 % 12) (digitAlphabet.getD (positions 2 % 10) 'a') := by
  rfl

/-- Drawn base characters lie in the 62-character alphabet. -/
theorem alnum_getD_mem (n : Nat) : alnumAlphabet.getD (n % 62) 'a' ∈ alnumAlphabet := by
  have h62 : alnumAlphabet.length = 62 := rfl
  have h : n % 62 < alnumAlphabet.length := by rw [h62]; exact Nat.mod_lt _ (by norm_num)
  rw [List.getD_eq_getElem _ _ h]
  exact List.getElem_mem h

/-- Injected lowercase characters lie in the 62-character alphabet. -/
theorem lower_getD_mem (n : Nat) : lowerAlphabet.getD (n % 26) 'a' ∈ alnumAlphabet := by
  have h : ∀ i, i < 26 → lowerAlphabet.getD i 'a' ∈ alnumAlphabet := by decide
  exact h _ (Nat.mod_lt _ (by norm_num))

/-- Injected uppercase characters lie in the 62-character alphabet. -/
theorem upper_getD_mem (n : Nat) : upperAlphabet.getD (n % 26) 'a' ∈ alnumAlphabet := by
  have h : ∀ i, i < 26 → upperAlphabet.getD i 'a' ∈ alnumAlphabet := by decide
  exact h _ (Nat.mod_lt _ (by norm_num))

/-- Injected digit characters lie in the 62-character alphabet. -/
theorem digit_getD_mem (n : Nat) : digitAlphabet.getD (n % 10) 'a' ∈ alnumAlphabet := by
  have h : ∀ i, i < 10 → digitAlphabet.getD i 'a' ∈ alnumAlphabet := by decide
  exact h _ (Nat.mod_lt _ (by norm_num))

/-- Injected uppercase characters are uppercase. -/
theorem upper_getD_isUpper (n : Nat) : charIsUpper (upperAlphabet.getD (n % 26) 'a') = true := by
  have h : ∀ i, i < 26 → charIsUpper (upperAlphabet.getD i 'a') = true := by decide
  exact h _ (Nat.mod_lt _ (by norm_num))

/-- Injected lowercase characters are lowercase. -/
theorem lower_getD_isLower (n : Nat) : charIsLower (lowerAlphabet.getD (n % 26) 'a') = true := by
  have h : ∀ i, i < 26 → charIsLower (lowerAlphabet.getD i 'a') = true := by decide
  exact h _ (Nat.mod_lt _ (by norm_num))

/-- Injected digit characters are digits. -/
theorem digit_getD_isDigit (n : Nat) : charIsDigit (digitAlphabet.getD (n % 10) 'a') = true := by
  have h : ∀ i, i < 10 → charIsDigit (digitAlphabet.getD i 'a') = true := by decide
  exact h _ (Nat.mod_lt _ (by norm_num))

/-- No character of the 62-character alphabet is a symbol. -/
theorem alnum_no_symbol :
    alnumAlphabet.all (fun c => !(symbolAlphabet.contains c)) = true := by decide

/-! ## Claim C4 -/

/-- C4 counterexample: with all three injection positions drawn equal (the
`positions` array all zeros) and a base draw of all uppercase (`array` all
26), the later digit injection overwrites the lowercase one and the result
`"0AAAAAAAAAAA"` contains no lowercase letter, refuting "every run ...
contains at least one lowercase letter". -/
theorem C4_counterexample :
    generatePassword c4opts (fun _ => 26) (fun _ => 0) = "0AAAAAAAAAAA" ∧
    (generatePassword c4opts (fun _ => 26) (fun _ => 0)).data.any charIsLower = false := by
  decide

/-- C4 amended: a C4-policy run always — for every draw — has length 12, at
least one digit and no symbol characters; and when the three injection
positions are pairwise distinct modulo 12 it also contains at least one
uppercase and one lowercase letter. -/
theorem C4_generate_policy (array positions : Nat → Nat) :
    (generatePassword c4opts array positions).length = 12 ∧
    (generatePassword c4opts array positions).data.any charIsDigit = true ∧
    (generatePassword c4opts array positions).data.all
      (fun c => !(symbolAlphabet.contains c)) = true ∧
    (positions 0 % 12 ≠ positions 1 % 12 → positions 0 % 12 ≠ positions 2 % 12 →
     positions 1 % 12 ≠ positions 2 % 12 →
      (generatePassword c4opts array positions).data.any charIsUpper = true ∧
      (generatePassword c4opts array positions).data.any charIsLower = true) := by
  have hshape := c4_shape array positions
  have hbase : ((List.range 12).map fun i => alnumAlphabet.getD (array i % 62) 'a').length = 12 := by
    simp
  have hp0 : positions 0 % 12 < 12 := Nat.mod_lt _ (by norm_num)
  have hp1 : positions 1 % 12 < 12 := Nat.mod_lt _ (by norm_num)
  have hp2 : positions 2 % 12 < 12 := Nat.mod_lt _ (by norm_num)
  have hlen : (generatePassword c4opts array positions).data.length = 12 := by
    rw [hshape]; simp [List.length_set, hbase]
  have hlt0 : positions 0 % 12 < (generatePassword c4opts array positions).data.length := by
    rw [hlen]; exact hp0
  have hlt1 : positions 1 % 12 < (generatePassword c4opts array positions).data.length := by
    rw [hlen]; exact hp1
  have hlt2 : positions 2 % 12 < (generatePassword c4opts array positions).data.length := by
    rw [hlen]; exact hp2
  refine ⟨by rw [string_length_data, hlen], ?_, ?_, fun h01 h02 h12 => ⟨?_, ?_⟩⟩
  · -- at least one digit, unconditionally: the digit injection is last and
    -- always lands inside the array
    rw [List.any_eq_true]
    refine ⟨_, List.getElem_mem hlt2, ?_⟩
    have : (generatePassword c4opts array positions).data[positions 2 % 12]
        = digitAlphabet.getD (positions 2 % 10) 'a' := by
      simp only [hshape, List.getElem_set]
      simp
    rw [this]
    exact digit_getD_isDigit _
  · -- no symbols, unconditionally: every character lies in the 62-character
    -- alphabet
    rw [hshape, List.all_eq_true]
    intro c hc
    have hmem : c ∈ alnumAlphabet := by
      rcases List.mem_or_eq_of_mem_set hc with hc2 | rfl
      · rcases List.mem_or_eq_of_mem_set hc2 with hc3 | rfl
        · rcases List.mem_or_eq_of_mem_set hc3 with hc4 | rfl
          · obtain ⟨i, _, rfl⟩ := List.mem_map.mp hc4
            exact alnum_getD_mem _
          · exact lower_getD_mem _
        · exact upper_getD_mem _
      · exact digit_getD_mem _
    exact List.all_eq_true.mp alnum_no_symbol c hmem
  · -- at least one uppercase: only the digit injection follows, at a
    -- different position
    rw [List.any_eq_true]
    refine ⟨_, List.getElem_mem hlt1, ?_⟩
    have : (generatePassword c4opts array positions).data[positions 1 % 12]
        = upperAlphabet.getD (positions 1 % 26) 'a' := by
      simp only [hshape, List.getElem_set]
      rw [if_neg (Ne.symm h12)]
      simp
    rw [this]
    exact upper_getD_isUpper _
  · -- at least one lowercase: both later injections are at other positions
    rw [List.any_eq_true]
    refine ⟨_, List.getElem_mem hlt0, ?_⟩
    have : (generatePassword c4opts array positions).data[positions 0 % 12]
        = lowerAlphabet.getD (positions 0 % 26) 'a' := by
      simp only [hshape, List.getElem_set]
      rw [if_neg (Ne.symm h02), if_neg (Ne.symm h01)]
      simp
    rw [this]
    exact lower_getD_isLower _

/-- Witness for C4 at all-zero draws and identity positions (0, 1, 2 are
pairwise distinct modulo 12), discharging the distinctness hypotheses of the
upper/lower conjunct. -/
theorem C4_generate_policy_witness :
    ((0 : Nat) % 12 ≠ 1 % 12 ∧ (0 : Nat) % 12 ≠ 2 % 12 ∧ (1 : Nat) % 12 ≠ 2 % 12) ∧
    ((generatePassword c4opts (fun _ => 0) (fun i => i)).length = 12 ∧
     (generatePassword c4opts (fun _ => 0) (fun i => i)).data.any charIsDigit = true ∧
     (generatePassword c4opts (fun _ => 0) (fun i => i)).data.all
       (fun c => !(symbolAlphabet.contains c)) = true ∧
     ((generatePassword c4opts (fun _ => 0) (fun i => i)).data.any charIsUpper = true ∧
      (generatePassword c4opts (fun _ => 0) (fun i => i)).data.any charIsLower = true)) :=
  ⟨⟨by decide, by decide, by decide⟩,
    (C4_generate_policy (fun _ => 0) (fun i => i)).1,
    (C4_generate_policy (fun _ => 0) (fun i => i)).2.1,
    (C4_generate_policy (fun _ => 0) (fun i => i)).2.2.1,
    (C4_generate_policy (fun _ => 0) (fun i => i)).2.2.2 (by decide) (by decide) (by decide)⟩

/-! ## Claim C5 -/

/-- C5 counterexample: with all four include-flags cleared, a run drawing the
value 26 everywhere yields `"AAAAAAAAAAAA"` — all uppercase, no lowercase —
while the same draws with `lowercase := true` yield `"aaaaaaaaaaaa"`.  The
fallback therefore does not behave as if `includeLower` had been forced:
the fallback alphabet is lowercase+uppercase+digits, not the lowercase
alphabet. -/
theorem C5_counterexample :
    generatePassword c5opts (fun _ => 26) (fun _ => 0) = "AAAAAAAAAAAA" ∧
    (generatePassword c5opts (fun _ => 26) (fun _ => 0)).data.any charIsLower = false ∧
    generatePassword { c5opts with lowercase := true } (fun _ => 26) (fun _ => 0)
      = "aaaaaaaaaaaa" ∧
    generatePassword c5opts (fun _ => 26) (fun _ => 0)
      ≠ generatePassword { c5opts with lowercase := true } (fun _ => 26) (fun _ => 0) := by
  decide

/-- C5 amended: when all four include-flags are false the generator falls
back to the combined lowercase+uppercase+digits alphabet (62 characters) and
performs no coverage injection: the result is exactly the base draw from that
alphabet. -/
theorem C5_fallback_charset (len : Nat) (array positions : Nat → Nat) :
    generatePassword
        { length := len, uppercase := false, lowercase := false, numbers := false,
          symbols := false, excludeAmbiguous := false } array positions
      = String.mk ((List.range len).map fun i => alnumAlphabet.getD (array i % 62) 'a') ∧
    ((generatePassword
        { length := len, uppercase := false, lowercase := false, numbers := false,
          symbols := false, excludeAmbiguous := false } array positions).data.all
      fun c => decide (c ∈ alnumAlphabet)) = true := by
  refine ⟨rfl, ?_⟩
  rw [show (generatePassword
      { length := len, uppercase := false, lowercase := false, numbers := false,
        symbols := false, excludeAmbiguous := false } array positions).data
      = (List.range len).map fun i => alnumAlphabet.getD (array i % 62) 'a' from rfl]
  rw [List.all_eq_true]
  intro c hc
  obtain ⟨i, _, rfl⟩ := List.mem_map.mp hc
  simpa using alnum_getD_mem (array i)

/-! ## Claim C6 -/

/-- C6 counterexample: a requested length of 4 produces a 4-character
password — outside `[8, 128]`, neither clamped nor rejected. -/
theorem C6_counterexample :
    (generatePassword { length := 4 } (fun _ => 0) (fun _ => 0)).length = 4 ∧
    ¬(8 ≤ (generatePassword { length := 4 } (fun _ => 0) (fun _ => 0)).length ∧
        (generatePassword { length := 4 } (fun _ => 0) (fun _ => 0)).length ≤ 128) := by
  decide

/-- C6 amended: `generatePassword` performs no length validation at all — for
every policy (in or out of `[8, 128]`) and every draw it returns a password
of exactly the requested length. -/
theorem C6_generate_exact_length (opts : PasswordOptions) (array positions : Nat → Nat) :
    (generatePassword opts array positions).length = opts.length := by
  unfold generatePassword
  simp only [string_length_data]
  rw [injectReqs_length]
  simp

/-- The scalar value of a `Char` is a valid Unicode scalar value. -/
theorem char_toNat_valid (c : Char) : c.toNat.isValidChar := by
  rcases c.valid with h | ⟨h1, h2⟩
  · exact Or.inl h
  · exact Or.inr ⟨h1, h2⟩

/-- `0x80 + m` is a continuation byte for `m < 64`. -/
theorem isUtf8Cont_of (m : Nat) (h : m < 64) : isUtf8Cont (0x80 + m) = true := by
  simp [isUtf8Cont]; omega

/-- Decoding consumes one encoded scalar value and recurses. -/
theorem utf8DecodeCps_encodeChar (n : Nat) (hlt : n < 0x110000)
    (hs : n < 0xd800 ∨ 0xe000 ≤ n) (rest : List Nat) :
    utf8DecodeCps (utf8EncodeChar n ++ rest) = (utf8DecodeCps rest).map (n :: ·) := by
  have hdd1 : n / 64 / 64 = n / 4096 := by rw [Nat.div_div_eq_div_mul]
  have hdd2 : n / 4096 / 64 = n / 262144 := by rw [Nat.div_div_eq_div_mul]
  unfold utf8EncodeChar
  by_cases h1 : n < 0x80
  · rw [if_pos h1]
    show utf8DecodeCps (n :: rest) = _
    rw [utf8DecodeCps.eq_def]
    dsimp only
    rw [if_pos h1]
  · rw [if_neg h1]
    by_cases h2 : n < 0x800
    · rw [if_pos h2]
      show utf8DecodeCps ((0xc0 + n / 64) :: (0x80 + n % 64) :: rest) = _
      rw [utf8DecodeCps.eq_def]
      dsimp only
      rw [if_neg (by omega), if_pos (by omega)]
      rw [show (0xc0 + n / 64 - 0xc0) * 64 + (0x80 + n % 64 - 0x80) = n by omega]
      rw [if_pos ⟨by omega, isUtf8Cont_of _ (Nat.mod_lt _ (by norm_num))⟩]
    · rw [if_neg h2]
      by_cases h3 : n < 0x10000
      · rw [if_pos h3]
        show utf8DecodeCps
            ((0xe0 + n / 4096) :: (0x80 + n / 64 % 64) :: (0x80 + n % 64) :: rest) = _
        rw [utf8DecodeCps.eq_def]
        dsimp only
        rw [if_neg (by omega), if_neg (by omega), if_pos (by omega)]
        rw [show (0xe0 + n / 4096 - 0xe0) * 4096 + (0x80 + n / 64 % 64 - 0x80) * 64 +
            (0x80 + n % 64 - 0x80) = n by omega]
        rw [if_pos ⟨isUtf8Cont_of _ (Nat.mod_lt _ (by norm_num)),
          isUtf8Cont_of _ (Nat.mod_lt _ (by norm_num)), by omega, by omega⟩]
      · rw [if_neg h3]
        show utf8DecodeCps
            ((0xf0 + n / 262144) :: (0x80 + n / 4096 % 64) :: (0x80 + n / 64 % 64) ::
              (0x80 + n % 64) :: rest) = _
        rw [utf8DecodeCps.eq_def]
        dsimp only
        rw [if_neg (by omega), if_neg (by omega), if_neg (by omega), if_pos (by omega)]
        rw [show (0xf0 + n / 262144 - 0xf0) * 262144 + (0x80 + n / 4096 % 64 - 0x80) * 4096 +
            (0x80 + n / 64 % 64 - 0x80) * 64 + (0x80 + n % 64 - 0x80) = n by omega]
        rw [if_pos ⟨isUtf8Cont_of _ (Nat.mod_lt _ (by norm_num)),
          isUtf8Cont_of _ (Nat.mod_lt _ (by norm_num)),
          isUtf8Cont_of _ (Nat.mod_lt _ (by norm_num)), by omega, by omega⟩]

/-- Scalar values are below `0x110000`. -/
theorem char_toNat_lt (c : Char) : c.toNat < 0x110000 := by
  rcases char_toNat_valid c with h | ⟨_, h2⟩
  · omega
  · omega

/-- Scalar values avoid the surrogate range. -/
theorem char_not_surrogate (c : Char) : c.toNat < 0xd800 ∨ 0xe000 ≤ c.toNat := by
  rcases char_toNat_valid c with h | ⟨h1, _⟩
  · omega
  · omega

/-- `charOfCodepoint` inverts `Char.toNat`. -/
theorem charOfCodepoint_toNat (c : Char) : charOfCodepoint c.toNat = some c := by
  unfold charOfCodepoint
  rw [dif_pos (char_toNat_valid c)]
  congr 1

/-- UTF-8 decoding inverts encoding at the scalar-value level. -/
theorem utf8DecodeCps_encode (l : List Char) :
    utf8DecodeCps ((l.map fun c => utf8EncodeChar c.toNat).flatten)
      = some (l.map Char.toNat) := by
  induction l with
  | nil => rfl
  | cons c rest ih =>
    rw [List.map_cons, List.flatten_cons,
      utf8DecodeCps_encodeChar _ (char_toNat_lt c) (char_not_surrogate c), ih]
    rfl

/-- Rebuilding `Char`s from the scalar values of a string recovers it. -/
theorem mapM_charOfCodepoint (l : List Char) :
    (l.map Char.toNat).mapM charOfCodepoint = some l := by
  induction l with
  | nil => rfl
  | cons c rest ih =>
    rw [List.map_cons]
    simp only [List.mapM_cons, charOfCodepoint_toNat, ih]
    rfl

/-- `Utf8.stringify` inverts `Utf8.parse`. -/
theorem utf8DecodeStr_encode (s : String) : utf8DecodeStr (utf8Encode s) = some s := by
  unfold utf8DecodeStr utf8Encode
  rw [utf8DecodeCps_encode]
  show ((s.data.map Char.toNat).mapM charOfCodepoint).map String.mk = some s
  rw [mapM_charOfCodepoint]
  rfl

set_option maxRecDepth 40000 in
/-- A hex-encoded byte parses back to itself. -/
theorem hexPair_byte (b : Nat) (hb : b < 256) :
    hexPairVal (hexDigitChars.getD (b / 16 % 16) '0')
      (some (hexDigitChars.getD (b % 16) '0')) = b := by
  have h : ∀ x, x < 256 → hexPairVal (hexDigitChars.getD (x / 16 % 16) '0')
      (some (hexDigitChars.getD (x % 16) '0')) = x := by decide
  exact h b hb

/-- `Hex.parse` inverts `Hex`-encoding on byte lists (the persisted-nonce
compatibility contract). -/
theorem hexParse_hexEncode (bytes : List Nat) (hb : ∀ b ∈ bytes, b < 256) :
    hexParseCJ (hexEncode bytes) = bytes := by
  show hexParseChars ((bytes.map byteToHex).flatten) = bytes
  induction bytes with
  | nil => rfl
  | cons b bs ih =>
    rw [List.map_cons, List.flatten_cons]
    show hexParseChars (hexDigitChars.getD (b / 16 % 16) '0' ::
      hexDigitChars.getD (b % 16) '0' :: (bs.map byteToHex).flatten) = b :: bs
    rw [show ∀ c1 c2 rest, hexParseChars (c1 :: c2 :: rest)
        = hexPairVal c1 (some c2) :: hexParseChars rest from fun _ _ _ => rfl]
    rw [hexPair_byte b (hb b (List.mem_cons_self b bs)),
      ih fun x hx => hb x (List.mem_cons_of_mem b hx)]

/-- Alphabet characters are never the padding character. -/
theorem b64chr_not_pad (v : Nat) (h : v < 64) : decide (b64chr v ≠ '=') = true := by
  have hh : ∀ x, x < 64 → decide (b64chr x ≠ '=') = true := by decide
  exact hh v h

set_option maxRecDepth 40000 in
/-- `b64val` inverts `b64chr` on sextets. -/
theorem b64val_b64chr (v : Nat) (h : v < 64) : b64val (b64chr v) base64Map = some v := by
  have hh : ∀ x, x < 64 → b64val (b64chr x) base64Map = some x := by decide
  exact hh v h

/-- Base64 decoding inverts encoding, character-list form. -/
theorem b64_roundtrip_chars (bytes : List Nat) (hb : ∀ b ∈ bytes, b < 256) :
    b64decodeChars ((b64chunks bytes).takeWhile (fun c => c ≠ '=')) = some bytes := by
  induction bytes using b64chunks.induct with
  | case1 => rfl
  | case2 b0 =>
    have h0 : b0 < 256 := hb b0 (by simp)
    rw [b64chunks]
    rw [List.takeWhile_cons_of_pos (p := fun c => decide (c ≠ '='))
        (b64chr_not_pad (b0 / 4) (by omega)),
      List.takeWhile_cons_of_pos (p := fun c => decide (c ≠ '='))
        (b64chr_not_pad (b0 % 4 * 16) (by omega)),
      List.takeWhile_cons_of_neg (p := fun c => decide (c ≠ '=')) (by simp)]
    show b64decodeChars [b64chr (b0 / 4), b64chr (b0 % 4 * 16)] = some [b0]
    rw [b64decodeChars]
    rw [b64val_b64chr (b0 / 4) (by omega), b64val_b64chr (b0 % 4 * 16) (by omega)]
    dsimp only
    congr 2
    omega
  | case3 b0 b1 =>
    have h0 : b0 < 256 := hb b0 (by simp)
    have h1 : b1 < 256 := hb b1 (by simp)
    rw [b64chunks]
    rw [List.takeWhile_cons_of_pos (p := fun c => decide (c ≠ '='))
        (b64chr_not_pad (b0 / 4) (by omega)),
      List.takeWhile_cons_of_pos (p := fun c => decide (c ≠ '='))
        (b64chr_not_pad (b0 % 4 * 16 + b1 / 16) (by omega)),
      List.takeWhile_cons_of_pos (p := fun c => decide (c ≠ '='))
        (b64chr_not_pad (b1 % 16 * 4) (by omega)),
      List.takeWhile_cons_of_neg (p := fun c => decide (c ≠ '=')) (by simp)]
    show b64decodeChars [b64chr (b0 / 4), b64chr (b0 % 4 * 16 + b1 / 16),
      b64chr (b1 % 16 * 4)] = some [b0, b1]
    rw [b64decodeChars]
    rw [b64val_b64chr (b0 / 4) (by omega), b64val_b64chr (b0 % 4 * 16 + b1 / 16) (by omega),
      b64val_b64chr (b1 % 16 * 4) (by omega)]
    dsimp only
    congr 2
    · omega
    · congr 2
      omega
  | case4 b0 b1 b2 rest ih =>
    have h0 : b0 < 256 := hb b0 (by simp)
    have h1 : b1 < 256 := hb b1 (by simp)
    have h2 : b2 < 256 := hb b2 (by simp)
    rw [b64chunks]
    rw [List.takeWhile_cons_of_pos (p := fun c => decide (c ≠ '='))
        (b64chr_not_pad (b0 / 4) (by omega)),
      List.takeWhile_cons_of_pos (p := fun c => decide (c ≠ '='))
        (b64chr_not_pad (b0 % 4 * 16 + b1 / 16) (by omega)),
      List.takeWhile_cons_of_pos (p := fun c => decide (c ≠ '='))
        (b64chr_not_pad (b1 % 16 * 4 + b2 / 64) (by omega)),
      List.takeWhile_cons_of_pos (p := fun c => decide (c ≠ '='))
        (b64chr_not_pad (b2 % 64) (by omega))]
    rw [b64decodeChars]
    rw [b64val_b64chr (b0 / 4) (by omega), b64val_b64chr (b0 % 4 * 16 + b1 / 16) (by omega),
      b64val_b64chr (b1 % 16 * 4 + b2 / 64) (by omega), b64val_b64chr (b2 % 64) (by omega)]
    dsimp only
    rw [ih (fun x hx => hb x (by simp [hx]))]
    simp only [Option.map_some', Option.some.injEq, List.cons.injEq]
    refine ⟨by omega, by omega, by omega, trivial⟩

/-- Base64 decoding inverts encoding (the persisted-ciphertext
compatibility contract). -/
theorem base64_roundtrip (bytes : List Nat) (hb : ∀ b ∈ bytes, b < 256) :
    base64Decode (base64Encode bytes) = some bytes := by
  unfold base64Decode base64Encode
  show b64decodeChars ((b64chunks bytes).takeWhile (fun c => c ≠ '=')) = some bytes
  exact b64_roundtrip_chars bytes hb

/-- XOR-ing the same keystream twice is the identity (CTR mode symmetry). -/
theorem zipWith_xor_cancel (pt : List Nat) :
    ∀ ks : List Nat, pt.length ≤ ks.length →
      List.zipWith (· ^^^ ·) (List.zipWith (· ^^^ ·) pt ks) ks = pt := by
  induction pt with
  | nil => intro ks h; simp
  | cons p pt ih =>
    intro ks h
    cases ks with
    | nil => simp at h
    | cons k ks =>
      simp only [List.zipWith_cons_cons]
      rw [ih ks (by simpa using h)]
      rw [Nat.xor_assoc, Nat.xor_self, Nat.xor_zero]

/-- XOR of byte lists yields bytes. -/
theorem zipWith_xor_lt (u : List Nat) :
    ∀ v : List Nat, (∀ a ∈ u, a < 256) → (∀ b ∈ v, b < 256) →
      ∀ x ∈ List.zipWith (· ^^^ ·) u v, x < 256 := by
  induction u with
  | nil => intro v _ _ x hx; simp at hx
  | cons a u ih =>
    intro v hu hv x hx
    cases v with
    | nil => simp at hx
    | cons b v =>
      simp only [List.zipWith_cons_cons, List.mem_cons] at hx
      rcases hx with rfl | hx
      · exact Nat.xor_lt_two_pow (n := 8) (hu a (by simp)) (hv b (by simp))
      · exact ih v (fun y hy => hu y (by simp [hy])) (fun y hy => hv y (by simp [hy])) x hx

/-- UTF-8 encoding of a scalar value yields bytes. -/
theorem utf8EncodeChar_lt (n : Nat) (h : n < 0x110000) :
    ∀ b ∈ utf8EncodeChar n, b < 256 := by
  unfold utf8EncodeChar
  intro b hb
  by_cases h1 : n < 0x80
  · rw [if_pos h1] at hb; simp at hb; omega
  · rw [if_neg h1] at hb
    by_cases h2 : n < 0x800
    · rw [if_pos h2] at hb; simp at hb; omega
    · rw [if_neg h2] at hb
      by_cases h3 : n < 0x10000
      · rw [if_pos h3] at hb; simp at hb
        rcases hb with rfl | rfl | rfl <;> omega
      · rw [if_neg h3] at hb; simp at hb
        rcases hb with rfl | rfl | rfl | rfl <;> omega

/-- UTF-8 encoding yields bytes. -/
theorem utf8Encode_lt (s : String) : ∀ b ∈ utf8Encode s, b < 256 := by
  unfold utf8Encode
  intro b hb
  rw [List.mem_flatten] at hb
  obtain ⟨l, hl, hbl⟩ := hb
  rw [List.mem_map] at hl
  obtain ⟨c, _, rfl⟩ := hl
  exact utf8EncodeChar_lt _ (char_toNat_lt c) b hbl

/-- `getD` of a byte list with a byte default is a byte. -/
theorem getD_lt_of_all (l : List Nat) (i d : Nat) (hl : ∀ x ∈ l, x < 256) (hd : d < 256) :
    l.getD i d < 256 := by
  by_cases h : i < l.length
  · rw [List.getD_eq_getElem _ _ h]
    exact hl _ (List.getElem_mem h)
  · rw [List.getD_eq_default _ _ (by omega)]
    exact hd

set_option maxRecDepth 4000 in
/-- S-box entries are bytes. -/
theorem sbox_getD_lt (i : Nat) : sbox.getD i 0 < 256 := by
  refine getD_lt_of_all _ _ _ ?_ (by norm_num)
  decide

/-- Word serialization yields bytes. -/
theorem wordToBytes_lt (w : Nat) : ∀ b ∈ wordToBytes w, b < 256 := by
  intro b hb
  simp [wordToBytes] at hb
  rcases hb with rfl | rfl | rfl | rfl <;> exact Nat.mod_lt _ (by norm_num)

/-- Round-key bytes are bytes. -/
theorem roundKeyBytes_lt (ks : List Nat) (r : Nat) : ∀ b ∈ roundKeyBytes ks r, b < 256 := by
  intro b hb
  simp only [roundKeyBytes, wordsToBytes] at hb
  rw [List.mem_flatten] at hb
  obtain ⟨l, hl, hbl⟩ := hb
  rw [List.mem_map] at hl
  obtain ⟨w, _, rfl⟩ := hl
  exact wordToBytes_lt w b hbl

/-- AES output bytes are bytes (the final round ends in `SubBytes`,
`ShiftRows` and a round-key XOR, all byte-bounded). -/
theorem aesEncryptBlock_lt (keyBytes block : List Nat) :
    ∀ b ∈ aesEncryptBlock keyBytes block, b < 256 := by
  intro b hb
  unfold aesEncryptBlock at hb
  simp only [addRoundKey] at hb
  have hsub : ∀ st : List Nat, ∀ x ∈ shiftRowsState (subBytesState st), x < 256 := by
    intro st x hx
    simp only [shiftRowsState, List.mem_map] at hx
    obtain ⟨i, _, rfl⟩ := hx
    exact getD_lt_of_all _ _ _ (by
      intro y hy
      simp only [subBytesState, List.mem_map] at hy
      obtain ⟨z, _, rfl⟩ := hy
      exact sbox_getD_lt z) (by norm_num)
  exact zipWith_xor_lt _ _ (hsub _) (roundKeyBytes_lt _ _) b hb

/-- `ShiftRows` emits 16 bytes. -/
theorem shiftRowsState_length (st : List Nat) : (shiftRowsState st).length = 16 := by
  simp [shiftRowsState]

/-- A round key is 16 bytes. -/
theorem roundKeyBytes_length (ks : List Nat) (r : Nat) : (roundKeyBytes ks r).length = 16 := by
  simp only [roundKeyBytes]
  rw [wordsToBytes_length]
  rfl

/-- An AES output block is 16 bytes. -/
theorem aesEncryptBlock_length (keyBytes block : List Nat) :
    (aesEncryptBlock keyBytes block).length = 16 := by
  unfold aesEncryptBlock
  simp only [addRoundKey]
  rw [List.length_zipWith, shiftRowsState_length, roundKeyBytes_length]
  rfl

/-- The keystream covers `16 * nBlocks` bytes. -/
theorem ctrKeystream_length (keyBytes ivBytes : List Nat) (n : Nat) :
    (ctrKeystream keyBytes ivBytes n).length = 16 * n := by
  unfold ctrKeystream
  induction n with
  | zero => rfl
  | succ n ih =>
    rw [List.range_succ, List.map_append, List.flatten_append]
    simp only [List.length_append, ih, List.map_cons, List.map_nil, List.flatten_cons,
      List.flatten_nil, List.append_nil, aesEncryptBlock_length]
    omega

/-- Keystream bytes are bytes. -/
theorem ctrKeystream_lt (keyBytes ivBytes : List Nat) (n : Nat) :
    ∀ b ∈ ctrKeystream keyBytes ivBytes n, b < 256 := by
  intro b hb
  unfold ctrKeystream at hb
  rw [List.mem_flatten] at hb
  obtain ⟨l, hl, hbl⟩ := hb
  rw [List.mem_map] at hl
  obtain ⟨i, _, rfl⟩ := hl
  exact aesEncryptBlock_lt _ _ b hbl

/-! ## Claim C1 -/

/-- C1: for every JSON-serializable record `m` (one that survives the
`JSON.stringify`/`JSON.parse` roundtrip) and every key and nonce draw,
`decryptData (encryptData m k).encrypted (encryptData m k).nonce k`
returns `m`. -/
theorem C1_roundtrip (m : Json) (key : String) (nonceBytes : List Nat)
    (hm : jsonParse (jsonStringify m) = some m) :
    decryptData (encryptData m key nonceBytes).encrypted
      (encryptData m key nonceBytes).nonce key = some m := by
  have henc1 : (encryptData m key nonceBytes).encrypted
      = base64Encode (List.zipWith (· ^^^ ·) (utf8Encode (jsonStringify m))
          (ctrKeystream (hexParseCJ key) (hexParseCJ (hexEncode nonceBytes))
            (((utf8Encode (jsonStringify m)).length + 15) / 16))) := rfl
  have henc2 : (encryptData m key nonceBytes).nonce = hexEncode nonceBytes := rfl
  rw [henc1, henc2]
  set pt := utf8Encode (jsonStringify m) with hpt
  set ks := ctrKeystream (hexParseCJ key) (hexParseCJ (hexEncode nonceBytes))
    ((pt.length + 15) / 16) with hks
  set ct := List.zipWith (· ^^^ ·) pt ks with hct
  have hptlt : ∀ b ∈ pt, b < 256 := utf8Encode_lt _
  have hkslt : ∀ b ∈ ks, b < 256 := ctrKeystream_lt _ _ _
  have hctlt : ∀ b ∈ ct, b < 256 := zipWith_xor_lt _ _ hptlt hkslt
  have hkslen : ks.length = 16 * ((pt.length + 15) / 16) := ctrKeystream_length _ _ _
  have hlen : pt.length ≤ ks.length := by rw [hkslen]; omega
  have hctlen : ct.length = pt.length := by
    rw [hct, List.length_zipWith]; omega
  unfold decryptData
  rw [base64_roundtrip ct hctlt]
  dsimp only
  rw [hctlen, ← hks, hct, zipWith_xor_cancel pt ks hlen, hpt, utf8DecodeStr_encode]
  dsimp only
  exact hm

/-- Witness for C1 at a one-field record with the all-zero key and nonce. -/
theorem C1_roundtrip_witness :
    jsonParse (jsonStringify (Json.obj [("title", Json.str "a")]))
      = some (Json.obj [("title", Json.str "a")]) ∧
    decryptData
        (encryptData (Json.obj [("title", Json.str "a")]) c2k1 c2nonceBytes).encrypted
        (encryptData (Json.obj [("title", Json.str "a")]) c2k1 c2nonceBytes).nonce c2k1
      = some (Json.obj [("title", Json.str "a")]) :=
  ⟨by rfl, C1_roundtrip (Json.obj [("title", Json.str "a")]) c2k1 c2nonceBytes (by rfl)⟩

/-! ## Claim C2 -/

set_option maxRecDepth 10000 in
/-- FIPS-197 appendix C.3: AES-256 single-block vector. -/
theorem aesEncryptBlock_fips197 : aesEncryptBlock
    [0x00, 0x01, 0x02, 0x03, 0x04, 0x05, 0x06, 0x07, 0x08, 0x09, 0x0a, 0x0b, 0x0c, 0x0d,
     0x0e, 0x0f, 0x10, 0x11, 0x12, 0x13, 0x14, 0x15, 0x16, 0x17, 0x18, 0x19, 0x1a, 0x1b,
     0x1c, 0x1d, 0x1e, 0x1f]
    [0x00, 0x11, 0x22, 0x33, 0x44, 0x55, 0x66, 0x77, 0x88, 0x99, 0xaa, 0xbb, 0xcc, 0xdd,
     0xee, 0xff]
    = [0x8e, 0xa2, 0xb7, 0xca, 0x51, 0x67, 0x45, 0xbf, 0xea, 0xfc, 0x49, 0x90, 0x4b, 0x49,
       0x60, 0x89] := by decide

set_option maxRecDepth 40000 in
/-- SHA-256 of the empty message. -/
theorem sha256_empty_vector : sha256 [] =
    [0xe3, 0xb0, 0xc4, 0x42, 0x98, 0xfc, 0x1c, 0x14, 0x9a, 0xfb, 0xf4, 0xc8, 0x99, 0x6f,
     0xb9, 0x24, 0x27, 0xae, 0x41, 0xe4, 0x64, 0x9b, 0x93, 0x4c, 0xa4, 0x95, 0x99, 0x1b,
     0x78, 0x52, 0xb8, 0x55] := by decide

set_option maxRecDepth 40000 in
/-- SHA-256 of `"abc"` (FIPS-180 vector). -/
theorem sha256_abc_vector : sha256 (utf8Encode "abc") =
    [0xba, 0x78, 0x16, 0xbf, 0x8f, 0x01, 0xcf, 0xea, 0x41, 0x41, 0x40, 0xde, 0x5d, 0xae,
     0x22, 0x23, 0xb0, 0x03, 0x61, 0xa3, 0x96, 0x17, 0x7a, 0x9c, 0xb4, 0x10, 0xff, 0x61,
     0xf2, 0x00, 0x15, 0xad] := by decide

set_option maxRecDepth 40000 in
/-- PBKDF2-HMAC-SHA256, password `"password"`, salt `"salt"`, one iteration
(RFC 7914-era published vector). -/
theorem pbkdf2_one_iteration_vector :
    pbkdf2Sha256 (utf8Encode "password") (utf8Encode "salt") 1 8 =
    [0x12, 0x0f, 0xb6, 0xcf, 0xfc, 0xf8, 0xb3, 0x2c, 0x43, 0xe7, 0x22, 0x52, 0x56, 0xc4,
     0xf8, 0x37, 0xa8, 0x65, 0x48, 0xc9, 0x2c, 0xcc, 0x35, 0x48, 0x08, 0x05, 0x98, 0x7c,
     0xb7, 0x0b, 0xe1, 0x7b] := by decide
